import Mathlib

/-!
Verification development for the GridMR MapReduce framework
(`src/mapreduce/framework.py`, `src/mapreduce/program_loader.py`,
`src/mapreduce/types.py`).

The Python code is shallowly embedded: the filesystem is a function
`String → Option (List String)` from a path to the list of lines of the
file stored there (`none` when the file does not exist), user-supplied
mappers and reducers are functions into `Except String _` (an exception
being a `.error` carrying the exception message), and Python's built-in
`hash` is an arbitrary parameter `pyhash : String → Int` (CPython
randomizes string hashing per process; everything proved here holds for
every choice of hash function).  Python string primitives used by the
code (`str.strip`, `str.split`, `str.replace`, `os.path.basename`, …)
are re-implemented on `List Char` so that every definition evaluates
inside the kernel.
-/

namespace GridMR

/-! ## Python string primitives -/

/-- Python's `<` on strings compares code points lexicographically.
`Char.toNat` is the code point. -/
def charsLt : List Char → List Char → Bool
  | [], [] => false
  | [], _ :: _ => true
  | _ :: _, [] => false
  | a :: as, b :: bs =>
    if a.toNat < b.toNat then true
    else if b.toNat < a.toNat then false
    else charsLt as bs

/-- Python `a < b` on strings. -/
def strLt (a b : String) : Bool := charsLt a.data b.data

/-- Characters removed by Python's `str.strip()` (the ASCII whitespace
characters; the code never feeds it other Unicode whitespace). -/
def isPySpace (c : Char) : Bool :=
  c.toNat = 32 || c.toNat = 9 || c.toNat = 10 || c.toNat = 13 || c.toNat = 11 || c.toNat = 12

/-- Python `s.strip()`: remove leading and trailing whitespace. -/
def pyStrip (s : String) : String :=
  ⟨((s.data.dropWhile isPySpace).reverse.dropWhile isPySpace).reverse⟩

/-- Split at the first tab character, as Python's `s.split("\t", 1)`
when it returns two parts (`none` when the string has no tab). -/
def splitTab1 : List Char → Option (List Char × List Char)
  | [] => none
  | c :: cs =>
    if c.toNat = 9 then some ([], cs)
    else (splitTab1 cs).map (fun p => (c :: p.1, p.2))

/-- Fuel-driven worker for `pySplit`; the fuel is an upper bound on the
length of the remaining list, so the fuel pattern keeps the recursion
structural and kernel-reducible. `acc` is the current segment, reversed. -/
def pySplitAux (sep : List Char) : Nat → List Char → List Char → List (List Char)
  | _, acc, [] => [acc.reverse]
  | 0, acc, l => [acc.reverse ++ l]
  | fuel + 1, acc, c :: cs =>
    if sep.isPrefixOf (c :: cs) then
      acc.reverse :: pySplitAux sep fuel [] ((c :: cs).drop sep.length)
    else
      pySplitAux sep fuel (c :: acc) cs

/-- Python `s.split(sep)` for a non-empty separator: split at every
non-overlapping occurrence of `sep`, scanning left to right. -/
def pySplit (s sep : String) : List String :=
  (pySplitAux sep.data s.data.length [] s.data).map (fun cs => ⟨cs⟩)

/-- Fuel-driven worker for `pyReplace` (same fuel pattern as `pySplitAux`). -/
def pyReplaceAux (old new : List Char) : Nat → List Char → List Char
  | _, [] => []
  | 0, l => l
  | fuel + 1, c :: cs =>
    if old.isPrefixOf (c :: cs) then
      new ++ pyReplaceAux old new fuel ((c :: cs).drop old.length)
    else
      c :: pyReplaceAux old new fuel cs

/-- Python `s.replace(old, new)` for a non-empty `old`: replace every
non-overlapping occurrence, scanning left to right. -/
def pyReplace (s old new : String) : String :=
  ⟨pyReplaceAux old.data new.data s.data.length s.data⟩

/-- Whether `pat` occurs as a contiguous sublist (Python's `pat in s`). -/
def containsSub (pat : List Char) : List Char → Bool
  | [] => pat.isEmpty
  | c :: cs => pat.isPrefixOf (c :: cs) || containsSub pat cs

/-- `os.path.basename`: everything after the last `/`. -/
def pyBasename (p : String) : String :=
  ⟨(p.data.reverse.takeWhile (fun c => !(c == '/'))).reverse⟩

/-- `os.path.dirname` (POSIX): everything up to the last `/`, with
trailing slashes stripped unless the result is all slashes. -/
def pyDirname (p : String) : String :=
  let head := (p.data.reverse.dropWhile (fun c => !(c == '/'))).reverse
  if head.isEmpty then ""
  else if head.all (fun c => c == '/') then ⟨head⟩
  else ⟨(head.reverse.dropWhile (fun c => c == '/')).reverse⟩

/-- `os.path.join a b` for the shapes the code produces (no absolute
second component in practice, but the reset rule is kept). -/
def pyJoin (a b : String) : String :=
  if b.data.head? = some '/' then b
  else if a = "" then b
  else if a.data.getLast? = some '/' then a ++ b
  else a ++ "/" ++ b

/-- Digits of a decimal numeral (`none` if empty or a non-digit occurs). -/
def digitsToNat? : List Char → Option Nat :=
  go true 0
where
  go (empty : Bool) (acc : Nat) : List Char → Option Nat
    | [] => if empty then none else some acc
    | c :: cs =>
      if c.isDigit then go false (acc * 10 + (c.toNat - 48)) cs else none

/-- Python `int(s)`: strip whitespace, optional sign, decimal digits.
(Underscore group separators are not modelled; the filenames fed to it
contain only digits.) -/
def pyInt? (s : String) : Option Int :=
  match (pyStrip s).data with
  | '-' :: ds => (digitsToNat? ds).map (fun n => -(n : Int))
  | '+' :: ds => (digitsToNat? ds).map (fun n => (n : Int))
  | ds => (digitsToNat? ds).map (fun n => (n : Int))

/-- Python `f"{n:05d}"`. -/
def pad5 (n : Int) : String :=
  let pad (k : Nat) (s : String) : String := ⟨List.replicate (k - s.data.length) '0' ++ s.data⟩
  if n < 0 then "-" ++ pad 4 (toString n.natAbs) else pad 5 (toString n.natAbs)

/-- Python `enumerate(l, start)`. -/
def pyEnumerate (start : Nat) : List α → List (Nat × α)
  | [] => []
  | x :: xs => (start, x) :: pyEnumerate (start + 1) xs

/-- Decidable equality of `Except` results, used to evaluate concrete
runs in witnesses. -/
instance {ε σ : Type} [DecidableEq ε] [DecidableEq σ] : DecidableEq (Except ε σ) := fun a b =>
  match a, b with
  | .error x, .error y =>
    if h : x = y then isTrue (by rw [h]) else isFalse (by intro hh; cases hh; exact h rfl)
  | .ok x, .ok y =>
    if h : x = y then isTrue (by rw [h]) else isFalse (by intro hh; cases hh; exact h rfl)
  | .error _, .ok _ => isFalse (by intro hh; cases hh)
  | .ok _, .error _ => isFalse (by intro hh; cases hh)

end GridMR
namespace GridMR

/-! ## Data model (`src/mapreduce/types.py`) -/

/-- `KeyValue` from `types.py`.  Keys and values are opaque strings on
disk; the word-count programs emit strings, and `str` applied to a
string is the identity, so keys are modelled as `String`. -/
structure KeyValue where
  key : String
  value : String
deriving DecidableEq, Repr

inductive TaskStatus
  | pending
  | running
  | completed
  | failed
deriving DecidableEq, Repr

inductive TaskType
  | map
  | reduce
deriving DecidableEq, Repr

/-- `MapTask` from `types.py`.  `split_start` defaults to `0` and
`split_end` to `None`. -/
structure MapTask where
  task_id : String
  input_file : String
  output_dir : String
  mapper_code : String := ""
  mapper_url : String := ""
  split_start : Nat := 0
  split_end : Option Nat := none
deriving DecidableEq, Repr

/-- `ReduceTask` from `types.py`. -/
structure ReduceTask where
  task_id : String
  input_files : List String
  output_file : String
  reducer_code : String := ""
  reducer_url : String := ""
  partition_id : Int
deriving DecidableEq, Repr

/-- `TaskResult` from `types.py` (the wall-clock `execution_time` field
is not modelled). -/
structure TaskResult where
  task_id : String
  task_type : TaskType
  status : TaskStatus
  output_files : List String
  error_message : Option String := none
  worker_id : Option String := none
deriving DecidableEq, Repr

/-! ## Stable sort by a string key

Python's `list.sort(key=...)` is stable and ascending; a stable
insertion sort on the same key produces the identical list. -/

/-- Insert `a` after every element whose key is strictly below `a`'s key
(so before the first element whose key is `≥`, keeping equal keys in
arrival order: `a` is the earliest among its equals). -/
def insertByKey (key : γ → String) (a : γ) : List γ → List γ
  | [] => [a]
  | b :: l => if strLt (key b) (key a) then b :: insertByKey key a l else a :: b :: l

/-- Stable ascending sort by the string key, the list semantics of
`l.sort(key=lambda x: str(x.key))`. -/
def sortByKey (key : γ → String) : List γ → List γ
  | [] => []
  | a :: l => insertByKey key a (sortByKey key l)

/-! ## Insertion-ordered dictionary grouping

A Python `dict` keyed by `α` holding a list of `β` per key, built by
`if k not in d: d[k] = []` followed by `d[k].append(v)`.  It is an
association list in key-insertion order. -/

/-- One `d[k].append(v)` step (creating the entry at the end if absent);
only the first entry with key `k` is touched, and key lists built by
`dictGroupAux` never repeat a key. -/
def dictInsert [DecidableEq α] (g : List (α × List β)) (k : α) (v : β) : List (α × List β) :=
  match g with
  | [] => [(k, [v])]
  | e :: g' => if e.1 = k then (e.1, e.2 ++ [v]) :: g' else e :: dictInsert g' k v

/-- Scan `l` left to right, appending `valOf x` under key `keyOf x`. -/
def dictGroupAux [DecidableEq α] (keyOf : γ → α) (valOf : γ → β)
    (g : List (α × List β)) : List γ → List (α × List β)
  | [] => g
  | x :: xs => dictGroupAux keyOf valOf (dictInsert g (keyOf x) (valOf x)) xs

/-- The dict produced by grouping the whole list. -/
def dictGroup [DecidableEq α] (keyOf : γ → α) (valOf : γ → β) (l : List γ) :
    List (α × List β) :=
  dictGroupAux keyOf valOf [] l

/-- `d[k]` lookup (first — in our use only — entry with key `k`),
defaulting to `[]`. -/
def dvals [DecidableEq α] (k : α) : List (α × List β) → List β
  | [] => []
  | e :: g => if e.1 = k then e.2 else dvals k g

end GridMR
namespace GridMR

/-! ## `KeyPartitioner` (`framework.py` lines 65–118) -/

/-- `TaskTracker.__init__` builds `KeyPartitioner(num_partitions=4)`,
and `KeyPartitioner.__init__` itself defaults to 4. -/
def defaultNumPartitions : Nat := 4

/-- `KeyPartitioner.get_partition`: `hash(str(key)) % self.num_partitions`.
The caller already passes a string (and `str` on a string is the
identity), so `str(key)` is `key`; `hash` of a string never raises, so
the `except` fallback branch of the Python code is dead for every input
this model admits.  Python's `%` on a positive modulus agrees with
`Int.emod` (`%` on `Int`). -/
def get_partition (pyhash : String → Int) (num_partitions : Nat) (key : String) : Int :=
  pyhash key % (num_partitions : Int)

/-! ## `ShuffleSorter` (`framework.py` lines 121–211) -/

/-- The path mapping `f.replace("/shared/gridmr", self.nfs_mount)`
applied when `use_nfs` is set (lines 150–158, 245–257, 326–334,
373–388). -/
def inboundPath (use_nfs : Bool) (nfs_mount : String) (p : String) : String :=
  if use_nfs then pyReplace p "/shared/gridmr" nfs_mount else p

/-- The reverse mapping `f.replace(self.nfs_mount, "/shared/gridmr")`
applied to emitted paths (lines 326–334, 447–454). -/
def outboundPath (use_nfs : Bool) (nfs_mount : String) (p : String) : String :=
  if use_nfs then pyReplace p nfs_mount "/shared/gridmr" else p

/-- Parsing of one intermediate-file line (lines 172–177):
`parts = line.strip().split("\t", 1)`, kept only if it has two parts. -/
def parseTabLine (line : String) : Option KeyValue :=
  (splitTab1 (pyStrip line).data).map (fun p => { key := ⟨p.1⟩, value := ⟨p.2⟩ })

/-- Phase 1 of `shuffle_and_sort` (lines 160–180): read every mapped
input file that exists (a missing file is only warned about) and collect
the parsed key-value pairs in file order, then line order. -/
def collectRecords (fs : String → Option (List String)) (use_nfs : Bool)
    (nfs_mount : String) (intermediate_files : List String) : List KeyValue :=
  (intermediate_files.map (inboundPath use_nfs nfs_mount)).flatMap
    (fun f => match fs f with
      | some lines => lines.filterMap parseTabLine
      | none => [])

/-- `ShuffleSorter.shuffle_and_sort` (lines 134–211).  Returns
`(output pairs, path written, path returned)`: the output file holds one
line `key\tv1,v2,…\n` per pair (serialized by `serializeShuffledLine`),
written at the mapped path, while the returned path is the server path
when NFS is in use.  (The Python `partition_id` parameter feeds only
`print` statements and is not modelled.) -/
def shuffle_and_sort (fs : String → Option (List String)) (use_nfs : Bool)
    (nfs_mount : String) (intermediate_files : List String) (output_file : String) :
    List (String × List String) × String × String :=
  let mapped_output := inboundPath use_nfs nfs_mount output_file
  let all_kvs := collectRecords fs use_nfs nfs_mount intermediate_files
  let sorted := sortByKey (fun kv : KeyValue => kv.key) all_kvs
  let key_groups := dictGroup (fun kv : KeyValue => kv.key) (fun kv => kv.value) sorted
  let outPairs := (sortByKey (fun k : String => k) (key_groups.map Prod.fst)).map
    (fun k => (k, dvals k key_groups))
  (outPairs, mapped_output, if use_nfs then output_file else mapped_output)

/-- Serialization of one shuffled line (lines 200–205):
`f"{key}\t{values_str}\n"` with comma-joined values. -/
def serializeShuffledLine (p : String × List String) : String :=
  p.1 ++ "\t" ++ String.intercalate "," p.2 ++ "\n"

/-! ## `TaskTracker.execute_map_task` (`framework.py` lines 230–351) -/

/-- The slice `lines[start:end]` with `end = task.split_end or len(lines)`
(lines 274–277).  Python's `or` treats `0` like `None`. -/
def pySlice (lines : List String) (split_start : Nat) (split_end : Option Nat) :
    List String :=
  let e := match split_end with
    | none => lines.length
    | some 0 => lines.length
    | some k => k
  (lines.take e).drop split_start

/-- The sequence of `mapper.map(line_num, line.strip())` invocations made
by the loop at lines 291–293: one per sliced line, keyed by
`enumerate(lines, start)`. -/
def mapperCalls (lines : List String) (split_start : Nat) (split_end : Option Nat) :
    List (Nat × String) :=
  (pyEnumerate split_start (pySlice lines split_start split_end)).map
    (fun p => (p.1, pyStrip p.2))

/-- Run the mapper over every call, concatenating the emitted pairs; the
first exception aborts the loop (nothing has been written yet at that
point, so partial emission is unobservable). -/
def runCalls (mapper : Nat → String → Except String (List KeyValue)) :
    List (Nat × String) → Except String (List KeyValue)
  | [] => .ok []
  | (i, v) :: rest =>
    match mapper i v with
    | .error e => .error e
    | .ok kvs =>
      match runCalls mapper rest with
      | .error e => .error e
      | .ok more => .ok (kvs ++ more)

/-- The in-memory buckets (lines 283–299): group the emitted pairs by
`self.partitioner.get_partition(str(kv.key))`, in arrival order. -/
def mapPartitions (pyhash : String → Int) (kvs : List KeyValue) :
    List (Int × List KeyValue) :=
  dictGroup (fun kv => get_partition pyhash defaultNumPartitions kv.key)
    (fun kv => kv) kvs

/-- Serialization of one intermediate record (lines 322–324 and 59–61):
`f"{kv.key}\t{kv.value}\n"`. -/
def serializeKVLine (kv : KeyValue) : String :=
  kv.key ++ "\t" ++ kv.value ++ "\n"

/-- `job_id = "_".join(task.task_id.split("_")[:-2])` (line 261). -/
def jobIdOfTaskId (task_id : String) : String :=
  String.intercalate "_" ((pySplit task_id "_").dropLast.dropLast)

/-- `os.path.join(output_dir, "jobs", job_id, "intermediate", "map")`
(lines 262–264). -/
def intermediateMapDir (output_dir job_id : String) : String :=
  pyJoin (pyJoin (pyJoin (pyJoin output_dir "jobs") job_id) "intermediate") "map"

/-- `f"map_{task.task_id}_part_{partition_id}.txt"` (lines 307–310). -/
def mapOutFileName (task_id : String) (partition_id : Int) : String :=
  "map_" ++ task_id ++ "_part_" ++ toString partition_id ++ ".txt"

/-- The Python `"[Errno 2] ..."` message of the `IOError` raised by
`open` on a missing file; only the fact that the message reaches
`TaskResult.error_message` matters. -/
def fileNotFoundMsg (path : String) : String :=
  "[Errno 2] No such file or directory: " ++ "\x27" ++ path ++ "\x27"

/-- `TaskTracker.execute_map_task` (lines 230–351).  Returns the
`TaskResult` and the list of `(path, serialized lines)` files written.
The `try` block turns any exception — the input file missing, or the
mapper raising — into `status=FAILED` with the message in
`error_message`; `result.output_files` is only assigned (line 336) after
every partition file has been written. -/
def execute_map_task (fs : String → Option (List String)) (pyhash : String → Int)
    (worker_id : String) (use_nfs : Bool) (nfs_mount : String)
    (mapper : Nat → String → Except String (List KeyValue)) (task : MapTask) :
    TaskResult × List (String × List String) :=
  let base : TaskResult :=
    { task_id := task.task_id, task_type := .map, status := .running,
      output_files := [], worker_id := some worker_id }
  let input_file := inboundPath use_nfs nfs_mount task.input_file
  let output_dir := inboundPath use_nfs nfs_mount task.output_dir
  let dir := intermediateMapDir output_dir (jobIdOfTaskId task.task_id)
  match fs input_file with
  | none =>
    ({ base with status := .failed, error_message := some (fileNotFoundMsg input_file) }, [])
  | some lines =>
    match runCalls mapper (mapperCalls lines task.split_start task.split_end) with
    | .error e => ({ base with status := .failed, error_message := some e }, [])
    | .ok kvs =>
      let written := (mapPartitions pyhash kvs).map (fun e =>
        (pyJoin dir (mapOutFileName task.task_id e.1),
         (sortByKey (fun kv : KeyValue => kv.key) e.2).map serializeKVLine))
      let output_files := written.map (fun w => outboundPath use_nfs nfs_mount w.1)
      ({ base with status := .completed, output_files := output_files }, written)

/-- `TaskTracker.execute_map_task_from_url` (lines 470–488): a loader
failure is caught and returned as a failed `TaskResult` with message
`f"Failed to load mapper: {e}"`. -/
def execute_map_task_from_url (fs : String → Option (List String))
    (pyhash : String → Int) (worker_id : String) (use_nfs : Bool) (nfs_mount : String)
    (loaded : Except String (Nat → String → Except String (List KeyValue)))
    (task : MapTask) : TaskResult × List (String × List String) :=
  match loaded with
  | .ok mapper => execute_map_task fs pyhash worker_id use_nfs nfs_mount mapper task
  | .error e =>
    ({ task_id := task.task_id, task_type := .map, status := .failed,
       output_files := [], worker_id := some worker_id,
       error_message := some ("Failed to load mapper: " ++ e) }, [])

/-! ## `TaskTracker.execute_reduce_task` (`framework.py` lines 353–468) -/

/-- Parsing of one shuffled line on the reduce side (lines 436–441):
strip, split at the first tab, and split the value part on commas
(`values_str.split(",") if values_str else []`). -/
def parseShuffledLine (line : String) : Option (String × List String) :=
  (splitTab1 (pyStrip line).data).map (fun p =>
    (⟨p.1⟩, if (⟨p.2⟩ : String) = "" then [] else pySplit ⟨p.2⟩ ","))

/-- The reducer loop (lines 434–445): run the reducer on each parsed
line, appending its emissions to the output file; the first exception
stops the loop with the lines emitted so far already written. -/
def reduceLines (reducer : String → List String → Except String (List KeyValue)) :
    List (String × List String) → List KeyValue × Option String
  | [] => ([], none)
  | (k, vs) :: rest =>
    match reducer k vs with
    | .error e => ([], some e)
    | .ok out =>
      let r := reduceLines reducer rest
      (out ++ r.1, r.2)

/-- `base_dir = os.path.dirname(os.path.dirname(output_file))` after the
inbound rewrite (lines 374–397). -/
def reduceBaseDir (use_nfs : Bool) (nfs_mount : String) (task : ReduceTask) : String :=
  pyDirname (pyDirname (inboundPath use_nfs nfs_mount task.output_file))

/-- `shuffle_output_file` of the reduce task (lines 398–403). -/
def shuffleOutPath (use_nfs : Bool) (nfs_mount : String) (task : ReduceTask) : String :=
  pyJoin (pyJoin (pyJoin (pyJoin (reduceBaseDir use_nfs nfs_mount task) "jobs")
      (jobIdOfTaskId task.task_id)) "intermediate")
    (pyJoin "shuffled" ("shuffled_part_" ++ toString task.partition_id ++ ".txt"))

/-- `final_output_file` of the reduce task (lines 405–411). -/
def finalOutPath (use_nfs : Bool) (nfs_mount : String) (task : ReduceTask) : String :=
  pyJoin (pyJoin (pyJoin (pyJoin (reduceBaseDir use_nfs nfs_mount task) "jobs")
      (jobIdOfTaskId task.task_id)) "intermediate")
    (pyJoin "reduce" ("part-" ++ pad5 task.partition_id ++ ".txt"))

/-- The `(key, values)` pairs the reducer loop iterates over (lines
434–441): the shuffled file just written by `shuffle_and_sort` on the
task's inbound-rewritten input files, read back line by line. -/
def reduceParsed (fs : String → Option (List String)) (use_nfs : Bool)
    (nfs_mount : String) (task : ReduceTask) : List (String × List String) :=
  (((shuffle_and_sort fs use_nfs nfs_mount
      (task.input_files.map (inboundPath use_nfs nfs_mount))
      (shuffleOutPath use_nfs nfs_mount task)).1.map
    serializeShuffledLine).filterMap parseShuffledLine)

/-- `TaskTracker.execute_reduce_task` (lines 353–468).  Returns the
`TaskResult` and the `(path, serialized lines)` files written: the
shuffled file, then the final output (possibly truncated if the reducer
raised part-way).  `result.output_files` is only assigned (lines
447–454) after the final output file's `with` block has closed. -/
def execute_reduce_task (fs : String → Option (List String))
    (worker_id : String) (use_nfs : Bool) (nfs_mount : String)
    (reducer : String → List String → Except String (List KeyValue))
    (task : ReduceTask) : TaskResult × List (String × List String) :=
  let base : TaskResult :=
    { task_id := task.task_id, task_type := .reduce, status := .running,
      output_files := [], worker_id := some worker_id }
  let input_files := task.input_files.map (inboundPath use_nfs nfs_mount)
  let shuffled := shuffle_and_sort fs use_nfs nfs_mount input_files
    (shuffleOutPath use_nfs nfs_mount task)
  let final_output_file := finalOutPath use_nfs nfs_mount task
  let r := reduceLines reducer (reduceParsed fs use_nfs nfs_mount task)
  let written := [(shuffled.2.1, shuffled.1.map serializeShuffledLine),
    (final_output_file, r.1.map serializeKVLine)]
  match r.2 with
  | some e => ({ base with status := .failed, error_message := some e }, written)
  | none =>
    ({ base with
        status := .completed
        output_files := [outboundPath use_nfs nfs_mount final_output_file] }, written)

/-- `TaskTracker.execute_reduce_task_from_url` (lines 490–510). -/
def execute_reduce_task_from_url (fs : String → Option (List String))
    (worker_id : String) (use_nfs : Bool) (nfs_mount : String)
    (loaded : Except String (String → List String → Except String (List KeyValue)))
    (task : ReduceTask) : TaskResult × List (String × List String) :=
  match loaded with
  | .ok reducer => execute_reduce_task fs worker_id use_nfs nfs_mount reducer task
  | .error e =>
    ({ task_id := task.task_id, task_type := .reduce, status := .failed,
       output_files := [], worker_id := some worker_id,
       error_message := some ("Failed to load reducer: " ++ e) }, [])

end GridMR
namespace GridMR

/-! ## `MapReduceJob.create_reduce_tasks` (`framework.py` lines 556–593) -/

/-- Partition-id extraction from a file path (lines 568–574):
`filename = os.path.basename(file_path)`, guarded by
`"_part_" in filename`, then
`int(filename.split("_part_")[1].split(".")[0])`.
`none`: no `"_part_"` in the filename, so the file is skipped;
`some (.error _)`: `int()` raises (propagating out of the method);
`some (.ok p)`: partition id `p`. -/
def partIdOfFile (file_path : String) : Option (Except String Int) :=
  match pySplit (pyBasename file_path) "_part_" with
  | _ :: seg :: _ =>
    some (match pyInt? ((pySplit seg ".").headD "") with
      | some n => .ok n
      | none => .error "invalid literal for int() with base 10")
  | _ => none

/-- The grouping loop of `create_reduce_tasks` (lines 566–574), with the
possible `ValueError` from `int()` surfaced as `.error`. -/
def groupFilesAux (g : List (Int × List String)) :
    List String → Except String (List (Int × List String))
  | [] => .ok g
  | f :: fs =>
    match partIdOfFile f with
    | none => groupFilesAux g fs
    | some (.error e) => .error e
    | some (.ok p) => groupFilesAux (dictInsert g p f) fs

/-- `MapReduceJob.create_reduce_tasks` (lines 556–593): concatenate the
output files of the completed map results, group by parsed partition id,
and build one `ReduceTask` per group.  (Its `num_reducers` parameter is
unused by the Python body and therefore not modelled.) -/
def create_reduce_tasks (job_id output_dir : String) (completed : List TaskResult) :
    Except String (List ReduceTask) :=
  let intermediate_files := completed.flatMap (fun r => r.output_files)
  match groupFilesAux [] intermediate_files with
  | .error e => .error e
  | .ok partitions =>
    .ok (partitions.map (fun e =>
      { task_id := job_id ++ "_reduce_" ++ toString e.1,
        input_files := e.2,
        output_file := pyJoin (pyJoin output_dir "placeholder") ("part-" ++ pad5 e.1 ++ ".txt"),
        reducer_code := "",
        partition_id := e.1 }))

/-! ## `ProgramLoader._find_program_class` (`program_loader.py` lines 114–140) -/

/-- A class object of the loaded module, with the three attributes the
loader inspects: its `__name__`, whether `issubclass(obj, target)`
holds, whether it is the target base class itself, and whether
`obj.__module__` equals the loaded module's name. -/
structure PyClass where
  name : String
  inheritsTarget : Bool
  isBaseItself : Bool
  definedInModule : Bool
deriving DecidableEq, Repr

/-- The filter at lines 120–126. -/
def matchesTarget (c : PyClass) : Bool :=
  c.inheritsTarget && !c.isBaseItself && c.definedInModule

/-- `inspect.getmembers(module, inspect.isclass)` returns the classes
sorted by name (`results.sort(key=lambda pair: pair[0])` in `inspect`),
not in declaration order.  The argument is the module's classes in
declaration order. -/
def getmembersClasses (declared : List PyClass) : List PyClass :=
  sortByKey (fun c : PyClass => c.name) declared

/-- `ProgramLoader._find_program_class` (lines 114–140): scan the
members returned by `inspect.getmembers`, keep the matching classes,
raise `ImportError` if none, and return `found_classes[0]` together with
whether the multiple-classes warning was printed. -/
def find_program_class (declared : List PyClass) : Except String (PyClass × Bool) :=
  match (getmembersClasses declared).filter matchesTarget with
  | [] => .error "No target class found in module."
  | c :: rest => .ok (c, !rest.isEmpty)

/-! ## Definitions following the specification's words (only for
comparison against the code; nothing else depends on them) -/

/-- Modelled from the spec: "if more than one is found, the first (by
declaration order) is used" — the same procedure but picking the first
matching class in declaration order instead of `getmembers` order. -/
def find_program_class_declSpec (declared : List PyClass) : Except String (PyClass × Bool) :=
  match declared.filter matchesTarget with
  | [] => .error "No target class found in module."
  | c :: rest => .ok (c, !rest.isEmpty)

/-- Modelled from the spec: "pure string-prefix substitution (only a
leading occurrence of the prefix is rewritten)". -/
def leadingOnlyRewrite (old new p : String) : String :=
  if old.data.isPrefixOf p.data then new ++ ⟨p.data.drop old.data.length⟩ else p

/-- Modelled from the spec: "value is the line's text without its
trailing newline, otherwise unchanged". -/
def dropTrailingNewline (s : String) : String :=
  if s.data.getLast? = some (Char.ofNat 10) then ⟨s.data.dropLast⟩ else s

/-- The call list claim C8 asserts (spec wording): line keys counted
from `split_start`, values with only the trailing newline removed. -/
def mapperCallsSpec (lines : List String) (split_start : Nat) (split_end : Option Nat) :
    List (Nat × String) :=
  (pyEnumerate split_start (pySlice lines split_start split_end)).map
    (fun p => (p.1, dropTrailingNewline p.2))

end GridMR
namespace GridMR

/-! ## Concrete fixtures used by witnesses and counterexamples -/

/-- A module declaring two mapper classes, `BMapper` before `AMapper`
(declaration order). -/
def modC5 : List PyClass :=
  [{ name := "BMapper", inheritsTarget := true, isBaseItself := false, definedInModule := true },
   { name := "AMapper", inheritsTarget := true, isBaseItself := false, definedInModule := true }]


/-- A concrete two-file intermediate store used by witnesses. -/
def fsC1 : String → Option (List String) := fun p =>
  if p = "/d/f1" then some ["b\t1\n", "a\t2\n"]
  else if p = "/d/f2" then some ["a\t3\n"] else none


/-- The reduce tasks produced by `create_reduce_tasks` in the C3
witness run. -/
def reduceTasksC3 : List ReduceTask :=
  [{ task_id := "j_reduce_1", input_files := ["/d/map_j_map_0_part_1.txt"],
     output_file := "/o/placeholder/part-00001.txt", reducer_code := "",
     partition_id := 1 },
   { task_id := "j_reduce_0", input_files := ["/d/map_j_map_0_part_0.txt"],
     output_file := "/o/placeholder/part-00000.txt", reducer_code := "",
     partition_id := 0 }]


/-- The `(partition id, file)` pair contributed by a file, when its
name parses (`none` when the file is skipped or would raise). -/
def okPair (f : String) : Option (Int × String) :=
  match partIdOfFile f with
  | some (.ok p) => some (p, f)
  | _ => none

/-- Boolean form of "this file parses to partition `p`". -/
def hasPartId (p : Int) (f : String) : Bool :=
  match partIdOfFile f with
  | some (.ok q) => decide (q = p)
  | _ => false

end GridMR

namespace GridMR

/-! ## Order facts for the code-point comparison -/

theorem charsLt_irrefl : ∀ l : List Char, charsLt l l = false
  | [] => rfl
  | a :: as => by simp [charsLt, charsLt_irrefl as]

theorem charsLt_asymm : ∀ {a b : List Char}, charsLt a b = true → charsLt b a = false
  | [], [], h => by simp [charsLt] at h
  | [], _ :: _, _ => rfl
  | _ :: _, [], h => by simp [charsLt] at h
  | a :: as, b :: bs, h => by
    by_cases hab : a.toNat < b.toNat
    · simp [charsLt, Nat.lt_asymm hab, hab]
    · by_cases hba : b.toNat < a.toNat
      · simp [charsLt, hab, hba] at h
      · simp only [charsLt, hab, hba, if_false] at h
        simp [charsLt, hab, hba, charsLt_asymm h]

theorem charsLt_trans : ∀ {a b c : List Char},
    charsLt a b = true → charsLt b c = true → charsLt a c = true
  | [], _, _ :: _, _, _ => rfl
  | [], [], _, h, _ => by simp [charsLt] at h
  | [], _ :: _, [], _, h => by simp [charsLt] at h
  | _ :: _, [], _, h, _ => by simp [charsLt] at h
  | _ :: _, _ :: _, [], _, h => by simp [charsLt] at h
  | a :: as, b :: bs, c :: cs, h₁, h₂ => by
    by_cases hab : a.toNat < b.toNat
    · by_cases hbc : b.toNat < c.toNat
      · simp [charsLt, Nat.lt_trans hab hbc]
      · by_cases hcb : c.toNat < b.toNat
        · simp [charsLt, hbc, hcb] at h₂
        · have hbceq : b.toNat = c.toNat :=
            Nat.le_antisymm (Nat.le_of_not_lt hcb) (Nat.le_of_not_lt hbc)
          simp [charsLt, hbceq ▸ hab]
    · by_cases hba : b.toNat < a.toNat
      · simp [charsLt, hab, hba] at h₁
      · have habeq : a.toNat = b.toNat :=
          Nat.le_antisymm (Nat.le_of_not_lt hba) (Nat.le_of_not_lt hab)
        simp only [charsLt, hab, hba, if_false] at h₁
        by_cases hbc : b.toNat < c.toNat
        · simp [charsLt, habeq ▸ hbc]
        · by_cases hcb : c.toNat < b.toNat
          · simp [charsLt, hbc, hcb] at h₂
          · simp only [charsLt, hbc, hcb, if_false] at h₂
            simp [charsLt, habeq ▸ hbc, habeq ▸ hcb, charsLt_trans h₁ h₂]

theorem charsLt_eq_of_not : ∀ {a b : List Char},
    charsLt a b = false → charsLt b a = false → a = b
  | [], [], _, _ => rfl
  | [], _ :: _, h, _ => by simp [charsLt] at h
  | _ :: _, [], _, h => by simp [charsLt] at h
  | a :: as, b :: bs, h₁, h₂ => by
    by_cases hab : a.toNat < b.toNat
    · simp [charsLt, hab] at h₁
    · by_cases hba : b.toNat < a.toNat
      · simp [charsLt, hab, hba] at h₂
      · have hc : a = b :=
          Char.ext (UInt32.ext (Nat.le_antisymm (Nat.le_of_not_lt hba) (Nat.le_of_not_lt hab)))
        simp only [charsLt, hab, hba, if_false] at h₁ h₂
        rw [hc, charsLt_eq_of_not h₁ h₂]

theorem strLt_irrefl (s : String) : strLt s s = false := charsLt_irrefl s.data

theorem strLt_asymm {a b : String} (h : strLt a b = true) : strLt b a = false :=
  charsLt_asymm h

theorem strLt_trans {a b c : String} (h₁ : strLt a b = true) (h₂ : strLt b c = true) :
    strLt a c = true :=
  charsLt_trans h₁ h₂

theorem strLt_eq_of_not {a b : String} (h₁ : strLt a b = false) (h₂ : strLt b a = false) :
    a = b := by
  cases a; cases b
  exact congrArg String.mk (charsLt_eq_of_not h₁ h₂)

/-- `charsLt` agrees with the standard lexicographic order on
`List Char` (so with Python's string comparison). -/
theorem charsLt_iff : ∀ a b : List Char, charsLt a b = true ↔ a < b
  | [], [] => by
    simp only [charsLt, Bool.false_eq_true, false_iff]
    intro h
    cases h
  | [], c :: cs => by
    simp only [charsLt, true_iff]
    exact List.nil_lt_cons c cs
  | a :: as, [] => by
    simp only [charsLt, Bool.false_eq_true, false_iff]
    intro h
    cases h
  | a :: as, b :: bs => by
    by_cases hab : a.toNat < b.toNat
    · simp only [charsLt, hab, if_true, true_iff]
      exact List.Lex.rel hab
    · by_cases hba : b.toNat < a.toNat
      · simp only [charsLt, hab, hba, if_false, if_true, Bool.false_eq_true, false_iff]
        intro h
        cases h with
        | cons h => exact absurd hba (lt_irrefl _)
        | rel h => exact hab h
      · have heq : a = b :=
          Char.ext (UInt32.ext (Nat.le_antisymm (Nat.le_of_not_lt hba) (Nat.le_of_not_lt hab)))
        subst heq
        simp only [charsLt, hab, hba, if_false, charsLt_iff as bs]
        constructor
        · intro h
          exact List.Lex.cons h
        · intro h
          cases h with
          | cons h => exact h
          | rel h => exact absurd h hab

/-- `strLt` agrees with the (lexicographic) order on `String`. -/
theorem strLt_iff_lt (a b : String) : strLt a b = true ↔ a < b :=
  (charsLt_iff a.data b.data).trans String.lt_iff_toList_lt.symm

/-- Transitivity of `≤` phrased as "not `<`". -/
theorem strLt_false_trans {a b x : String} (hba : strLt b a = false)
    (hxb : strLt x b = false) : strLt x a = false := by
  rcases Bool.eq_false_or_eq_true (strLt x a) with hxa | hxa
  · rcases Bool.eq_false_or_eq_true (strLt a b) with hab | hab
    · exact absurd (strLt_trans hxa hab) (by simp [hxb])
    · rw [strLt_eq_of_not hab hba] at hxa
      exact absurd hxa (by simp [hxb])
  · exact hxa

end GridMR
namespace GridMR

/-! ## Facts about the stable sort -/

theorem insertByKey_pos (key : γ → String) (a b : γ) (l : List γ)
    (h : strLt (key b) (key a) = true) :
    insertByKey key a (b :: l) = b :: insertByKey key a l := by
  simp only [insertByKey, if_pos h]

theorem insertByKey_neg (key : γ → String) (a b : γ) (l : List γ)
    (h : strLt (key b) (key a) = false) :
    insertByKey key a (b :: l) = a :: b :: l := by
  simp only [insertByKey, h, Bool.false_eq_true, if_false]

theorem mem_insertByKey (key : γ → String) (a : γ) :
    ∀ l (x : γ), x ∈ insertByKey key a l ↔ x = a ∨ x ∈ l
  | [], x => by simp [insertByKey]
  | b :: l, x => by
    rcases Bool.eq_false_or_eq_true (strLt (key b) (key a)) with hb | hb
    · rw [insertByKey_pos key a b l hb]
      simp only [List.mem_cons, mem_insertByKey key a l x]
      tauto
    · rw [insertByKey_neg key a b l hb]
      simp only [List.mem_cons]

theorem perm_insertByKey (key : γ → String) (a : γ) :
    ∀ l, (insertByKey key a l).Perm (a :: l)
  | [] => List.Perm.refl _
  | b :: l => by
    rcases Bool.eq_false_or_eq_true (strLt (key b) (key a)) with hb | hb
    · rw [insertByKey_pos key a b l hb]
      exact ((perm_insertByKey key a l).cons b).trans (List.Perm.swap a b l)
    · rw [insertByKey_neg key a b l hb]

theorem perm_sortByKey (key : γ → String) : ∀ l, (sortByKey key l).Perm l
  | [] => List.Perm.refl _
  | a :: l =>
    (perm_insertByKey key a (sortByKey key l)).trans ((perm_sortByKey key l).cons a)

theorem pairwise_insertByKey (key : γ → String) (a : γ) :
    ∀ {l}, l.Pairwise (fun x y => strLt (key y) (key x) = false) →
      (insertByKey key a l).Pairwise (fun x y => strLt (key y) (key x) = false)
  | [], _ => by simp [insertByKey]
  | b :: l, h => by
    rcases List.pairwise_cons.mp h with ⟨hb, hl⟩
    rcases Bool.eq_false_or_eq_true (strLt (key b) (key a)) with hba | hba
    · rw [insertByKey_pos key a b l hba]
      refine List.pairwise_cons.mpr ⟨?_, pairwise_insertByKey key a hl⟩
      intro x hx
      rcases (mem_insertByKey key a l x).mp hx with rfl | hxl
      · exact strLt_asymm hba
      · exact hb x hxl
    · rw [insertByKey_neg key a b l hba]
      refine List.pairwise_cons.mpr ⟨?_, h⟩
      intro x hx
      rcases List.mem_cons.mp hx with rfl | hxl
      · exact hba
      · exact strLt_false_trans hba (hb x hxl)

theorem sortByKey_pairwise (key : γ → String) :
    ∀ l, (sortByKey key l).Pairwise (fun x y => strLt (key y) (key x) = false)
  | [] => List.Pairwise.nil
  | a :: l => pairwise_insertByKey key a (sortByKey_pairwise key l)

theorem filter_insertByKey (key : γ → String) (p : γ → Bool) (k : String)
    (hp : ∀ x, p x = true → key x = k) (a : γ) :
    ∀ l, (insertByKey key a l).filter p =
      if p a then a :: l.filter p else l.filter p
  | [] => by
    rcases Bool.eq_false_or_eq_true (p a) with ha | ha <;>
      simp [insertByKey, List.filter, ha]
  | b :: l => by
    rcases Bool.eq_false_or_eq_true (strLt (key b) (key a)) with hba | hba
    · rw [insertByKey_pos key a b l hba]
      rcases Bool.eq_false_or_eq_true (p a) with ha | ha
      · have hpb : p b = false := by
          rcases Bool.eq_false_or_eq_true (p b) with hpb | hpb
          · have : key b = key a := (hp b hpb).trans (hp a ha).symm
            rw [this, strLt_irrefl] at hba
            exact absurd hba (by simp)
          · exact hpb
        rw [List.filter_cons, List.filter_cons,
          filter_insertByKey key p k hp a l]
        simp [ha, hpb]
      · rw [List.filter_cons, List.filter_cons,
          filter_insertByKey key p k hp a l]
        rcases Bool.eq_false_or_eq_true (p b) with hpb | hpb <;> simp [ha, hpb]
    · rw [insertByKey_neg key a b l hba, List.filter_cons]

theorem filter_sortByKey (key : γ → String) (p : γ → Bool) (k : String)
    (hp : ∀ x, p x = true → key x = k) :
    ∀ l, (sortByKey key l).filter p = l.filter p
  | [] => rfl
  | a :: l => by
    rw [sortByKey, filter_insertByKey key p k hp a (sortByKey key l),
      filter_sortByKey key p k hp l, List.filter_cons]

end GridMR
namespace GridMR

/-! ## Facts about the insertion-ordered dictionary -/

section Dict

variable {α β γ : Type} [DecidableEq α]

theorem keys_dictInsert (g : List (α × List β)) (k : α) (v : β) :
    (dictInsert g k v).map Prod.fst =
      if k ∈ g.map Prod.fst then g.map Prod.fst else g.map Prod.fst ++ [k] := by
  induction g with
  | nil => simp [dictInsert]
  | cons e g ih =>
    by_cases he : e.1 = k
    · simp [dictInsert, he]
    · simp only [dictInsert, he, if_false, List.map_cons, ih, List.mem_cons]
      by_cases hk : k ∈ g.map Prod.fst
      · simp [hk, Ne.symm he]
      · simp [hk, Ne.symm he]

theorem mem_keys_dictInsert (g : List (α × List β)) (k k' : α) (v : β) :
    k ∈ (dictInsert g k' v).map Prod.fst ↔ k ∈ g.map Prod.fst ∨ k = k' := by
  rw [keys_dictInsert]
  by_cases hk : k' ∈ g.map Prod.fst
  · simp only [hk, if_true]
    constructor
    · exact Or.inl
    · rintro (h | rfl)
      · exact h
      · exact hk
  · simp [hk, List.mem_append]

theorem nodup_keys_dictInsert (g : List (α × List β)) (k : α) (v : β)
    (h : (g.map Prod.fst).Nodup) : ((dictInsert g k v).map Prod.fst).Nodup := by
  rw [keys_dictInsert]
  by_cases hk : k ∈ g.map Prod.fst
  · simpa [hk] using h
  · simp only [hk, if_false]
    exact h.append (List.nodup_singleton k) (by simpa using hk)

theorem dvals_dictInsert (g : List (α × List β)) (k k' : α) (v : β) :
    dvals k' (dictInsert g k v) =
      if k = k' then dvals k' g ++ [v] else dvals k' g := by
  induction g with
  | nil =>
    by_cases hk : k = k' <;> simp [dictInsert, dvals, hk]
  | cons e g ih =>
    by_cases he : e.1 = k
    · by_cases he' : e.1 = k'
      · have hk : k = k' := he ▸ he'
        simp [dictInsert, dvals, he, he', hk]
      · have hk : ¬k = k' := fun h => he' (he.trans h)
        simp [dictInsert, dvals, he, he', hk]
    · by_cases he' : e.1 = k'
      · have hk : ¬k = k' := fun h => he (h ▸ he')
        have hk' : ¬k' = k := fun h => hk h.symm
        simp [dictInsert, dvals, he, he', hk, hk']
      · simp [dictInsert, dvals, he, he', ih]

theorem dvals_eq_of_mem (g : List (α × List β)) (e : α × List β)
    (hnd : (g.map Prod.fst).Nodup) (he : e ∈ g) : dvals e.1 g = e.2 := by
  induction g with
  | nil => cases he
  | cons x g ih =>
    rw [List.map_cons] at hnd
    rcases List.mem_cons.mp he with rfl | he'
    · simp [dvals]
    · have hx : ¬x.1 = e.1 := by
        intro h
        have hmem : e.1 ∈ g.map Prod.fst := List.mem_map_of_mem Prod.fst he'
        exact (List.nodup_cons.mp hnd).1 (h.symm ▸ hmem)
      simp only [dvals, hx, if_false]
      exact ih (List.nodup_cons.mp hnd).2 he'

theorem dvals_dictGroupAux (keyOf : γ → α) (valOf : γ → β) :
    ∀ (l : List γ) (g : List (α × List β)) (k : α),
      dvals k (dictGroupAux keyOf valOf g l) =
        dvals k g ++ (l.filter (fun x => decide (keyOf x = k))).map valOf
  | [], g, k => by simp [dictGroupAux]
  | x :: xs, g, k => by
    rw [dictGroupAux, dvals_dictGroupAux keyOf valOf xs _ k, dvals_dictInsert]
    by_cases hx : keyOf x = k
    · simp [hx]
    · simp [hx]

theorem mem_keys_dictGroupAux (keyOf : γ → α) (valOf : γ → β) :
    ∀ (l : List γ) (g : List (α × List β)) (k : α),
      k ∈ (dictGroupAux keyOf valOf g l).map Prod.fst ↔
        k ∈ g.map Prod.fst ∨ ∃ x ∈ l, keyOf x = k
  | [], g, k => by simp [dictGroupAux]
  | x :: xs, g, k => by
    rw [dictGroupAux, mem_keys_dictGroupAux keyOf valOf xs _ k, mem_keys_dictInsert]
    constructor
    · rintro ((h | h) | ⟨y, hy, rfl⟩)
      · exact Or.inl h
      · exact Or.inr ⟨x, List.mem_cons_self x xs, h.symm⟩
      · exact Or.inr ⟨y, List.mem_cons_of_mem x hy, rfl⟩
    · rintro (h | ⟨y, hy, rfl⟩)
      · exact Or.inl (Or.inl h)
      · rcases List.mem_cons.mp hy with rfl | hy'
        · exact Or.inl (Or.inr rfl)
        · exact Or.inr ⟨y, hy', rfl⟩

theorem nodup_keys_dictGroupAux (keyOf : γ → α) (valOf : γ → β) :
    ∀ (l : List γ) (g : List (α × List β)),
      (g.map Prod.fst).Nodup → ((dictGroupAux keyOf valOf g l).map Prod.fst).Nodup
  | [], _, h => h
  | _x :: xs, g, h =>
    nodup_keys_dictGroupAux keyOf valOf xs _ (nodup_keys_dictInsert g _ _ h)

theorem dvals_dictGroup (keyOf : γ → α) (valOf : γ → β) (l : List γ) (k : α) :
    dvals k (dictGroup keyOf valOf l) =
      (l.filter (fun x => decide (keyOf x = k))).map valOf := by
  rw [dictGroup, dvals_dictGroupAux]
  simp [dvals]

theorem mem_keys_dictGroup (keyOf : γ → α) (valOf : γ → β) (l : List γ) (k : α) :
    k ∈ (dictGroup keyOf valOf l).map Prod.fst ↔ ∃ x ∈ l, keyOf x = k := by
  rw [dictGroup, mem_keys_dictGroupAux]
  simp

theorem nodup_keys_dictGroup (keyOf : γ → α) (valOf : γ → β) (l : List γ) :
    ((dictGroup keyOf valOf l).map Prod.fst).Nodup :=
  nodup_keys_dictGroupAux keyOf valOf l [] List.Pairwise.nil

theorem snd_eq_of_mem_dictGroup (keyOf : γ → α) (valOf : γ → β) (l : List γ)
    (e : α × List β) (he : e ∈ dictGroup keyOf valOf l) :
    e.2 = (l.filter (fun x => decide (keyOf x = e.1))).map valOf := by
  rw [← dvals_dictGroup keyOf valOf l e.1]
  exact (dvals_eq_of_mem _ e (nodup_keys_dictGroup keyOf valOf l) he).symm

/-- In a list whose image under `f` has no duplicates, exactly one
element maps to any value in the image. -/
theorem length_filter_eq_one (f : γ → α) :
    ∀ (l : List γ), (l.map f).Nodup → ∀ a ∈ l.map f,
      (l.filter (fun x => decide (f x = a))).length = 1
  | [], _, a, ha => by cases ha
  | x :: xs, hnd, a, ha => by
    rw [List.map_cons] at hnd ha
    rcases List.nodup_cons.mp hnd with ⟨hx, hxs⟩
    rcases List.mem_cons.mp ha with rfl | ha'
    · have : xs.filter (fun y => decide (f y = f x)) = [] := by
        rw [List.filter_eq_nil_iff]
        intro y hy
        simp only [decide_eq_true_eq]
        intro h
        exact hx (h ▸ List.mem_map_of_mem f hy)
      simp [List.filter_cons, this]
    · have hxa : ¬f x = a := fun h => hx (h ▸ ha')
      simp only [List.filter_cons, hxa, decide_eq_true_eq, if_false]
      exact length_filter_eq_one f xs hxs a ha'

end Dict

end GridMR
namespace GridMR

/-! ## Claim C2 -/

end GridMR

/-- C2: for every key, the partition assigned by `KeyPartitioner.get_partition`
equals `hash(str(key)) mod R` where `R` is the configured reduce fanout
(the `TaskTracker` default being 4); the result always lies in `[0, R)`;
and partitioning the same key twice yields the same partition. -/
theorem GridMR.get_partition_spec (pyhash : String → Int) (R : Nat) (hR : 0 < R)
    (key : String) :
    get_partition pyhash R key = pyhash key % (R : Int)
    ∧ 0 ≤ get_partition pyhash R key
    ∧ get_partition pyhash R key < (R : Int)
    ∧ (∀ key', key' = key → get_partition pyhash R key' = get_partition pyhash R key)
    ∧ defaultNumPartitions = 4 := by
  refine ⟨rfl, ?_, ?_, ?_, rfl⟩
  · exact Int.emod_nonneg _ (by exact_mod_cast Nat.pos_iff_ne_zero.mp hR)
  · exact Int.emod_lt_of_pos _ (by exact_mod_cast hR)
  · intro key' h
    rw [h]

/-- Witness for C2 at the default fanout `R = 4` and a concrete negative
hash value: `(-7) mod 4 = 1 ∈ [0, 4)`. -/
theorem GridMR.get_partition_spec_witness :
    GridMR.get_partition (fun _ => -7) 4 "a" = 1
    ∧ 0 ≤ GridMR.get_partition (fun _ => -7) 4 "a"
    ∧ GridMR.get_partition (fun _ => -7) 4 "a" < (4 : Int) :=
  ⟨by decide,
   (GridMR.get_partition_spec (fun _ => -7) 4 (by decide) "a").2.1,
   (GridMR.get_partition_spec (fun _ => -7) 4 (by decide) "a").2.2.1⟩

/-- C10: whenever map or reduce task execution (directly or through the
from-URL wrappers) returns a `TaskResult` with `status = FAILED`, its
`output_files` list is empty — output paths are only attached on the
success path, after every output file of the task has been written. -/
theorem GridMR.failed_result_has_no_output_files :
    (∀ fs pyhash w nfs mnt mapper task,
      (GridMR.execute_map_task fs pyhash w nfs mnt mapper task).1.status = TaskStatus.failed →
      (GridMR.execute_map_task fs pyhash w nfs mnt mapper task).1.output_files = [])
    ∧ (∀ fs w nfs mnt reducer task,
      (GridMR.execute_reduce_task fs w nfs mnt reducer task).1.status = TaskStatus.failed →
      (GridMR.execute_reduce_task fs w nfs mnt reducer task).1.output_files = [])
    ∧ (∀ fs pyhash w nfs mnt loaded task,
      (GridMR.execute_map_task_from_url fs pyhash w nfs mnt loaded task).1.status
          = TaskStatus.failed →
      (GridMR.execute_map_task_from_url fs pyhash w nfs mnt loaded task).1.output_files = [])
    ∧ (∀ fs w nfs mnt loaded task,
      (GridMR.execute_reduce_task_from_url fs w nfs mnt loaded task).1.status
          = TaskStatus.failed →
      (GridMR.execute_reduce_task_from_url fs w nfs mnt loaded task).1.output_files = []) := by
  have hmap : ∀ fs pyhash w nfs mnt mapper task,
      (GridMR.execute_map_task fs pyhash w nfs mnt mapper task).1.status = TaskStatus.failed →
      (GridMR.execute_map_task fs pyhash w nfs mnt mapper task).1.output_files = [] := by
    intro fs pyhash w nfs mnt mapper task h
    cases hfs : fs (inboundPath nfs mnt task.input_file) with
    | none => simp [GridMR.execute_map_task, hfs]
    | some lines =>
      cases hrc : runCalls mapper (mapperCalls lines task.split_start task.split_end) with
      | error e => simp [GridMR.execute_map_task, hfs, hrc]
      | ok kvs => simp [GridMR.execute_map_task, hfs, hrc] at h
  have hred : ∀ fs w nfs mnt reducer task,
      (GridMR.execute_reduce_task fs w nfs mnt reducer task).1.status = TaskStatus.failed →
      (GridMR.execute_reduce_task fs w nfs mnt reducer task).1.output_files = [] := by
    intro fs w nfs mnt reducer task h
    cases hr : (reduceLines reducer (reduceParsed fs nfs mnt task)).2 with
    | none => simp [GridMR.execute_reduce_task, hr] at h
    | some e => simp [GridMR.execute_reduce_task, hr]
  refine ⟨hmap, hred, ?_, ?_⟩
  · intro fs pyhash w nfs mnt loaded task
    cases loaded with
    | ok mapper => exact hmap fs pyhash w nfs mnt mapper task
    | error e => intro _; rfl
  · intro fs w nfs mnt loaded task
    cases loaded with
    | ok reducer => exact hred fs w nfs mnt reducer task
    | error e => intro _; rfl

/-- Witness for C10: a concrete failed map task (missing input file) and
a concrete failed reduce task (reducer that raises) both report empty
`output_files`. -/
theorem GridMR.failed_result_has_no_output_files_witness :
    (GridMR.execute_map_task (fun _ => none) (fun _ => 0) "w" false "/mnt/gridmr"
      (fun _ _ => .ok []) { task_id := "j_map_0", input_file := "/in", output_dir := "/o" }
      ).1.output_files = []
    ∧ (GridMR.execute_reduce_task
        (fun _ => some ["k\tv\n"]) "w" false "/mnt/gridmr"
        (fun _ _ => .error "boom")
        { task_id := "j_reduce_0", input_files := ["/f"], output_file := "/a/b/c.txt",
          partition_id := 0 }).1.output_files = [] :=
  ⟨GridMR.failed_result_has_no_output_files.1 _ _ _ _ _ _ _ (by decide),
   GridMR.failed_result_has_no_output_files.2.1 _ _ _ _ _ _ (by decide)⟩
/-- C4: map and reduce task execution is total — every run terminates in
a `COMPLETED` or `FAILED` result rather than propagating an exception —
and on each modelled failure (missing input file, mapper or reducer
exception, loader failure in the from-URL wrappers) the returned
`TaskResult` has `status = FAILED` with the error's message stored in
`error_message`. -/
theorem GridMR.task_failure_surfaced_in_result :
    (∀ fs pyhash w nfs mnt mapper task,
      (GridMR.execute_map_task fs pyhash w nfs mnt mapper task).1.status = TaskStatus.completed
      ∨ (GridMR.execute_map_task fs pyhash w nfs mnt mapper task).1.status = TaskStatus.failed)
    ∧ (∀ fs pyhash w nfs mnt mapper task,
      fs (GridMR.inboundPath nfs mnt task.input_file) = none →
      (GridMR.execute_map_task fs pyhash w nfs mnt mapper task).1.status = TaskStatus.failed
      ∧ (GridMR.execute_map_task fs pyhash w nfs mnt mapper task).1.error_message
          = some (GridMR.fileNotFoundMsg (GridMR.inboundPath nfs mnt task.input_file)))
    ∧ (∀ fs pyhash w nfs mnt mapper task lines e,
      fs (GridMR.inboundPath nfs mnt task.input_file) = some lines →
      GridMR.runCalls mapper (GridMR.mapperCalls lines task.split_start task.split_end)
          = .error e →
      (GridMR.execute_map_task fs pyhash w nfs mnt mapper task).1.status = TaskStatus.failed
      ∧ (GridMR.execute_map_task fs pyhash w nfs mnt mapper task).1.error_message = some e)
    ∧ (∀ fs pyhash w nfs mnt task e,
      (GridMR.execute_map_task_from_url fs pyhash w nfs mnt (.error e) task).1.status
          = TaskStatus.failed
      ∧ (GridMR.execute_map_task_from_url fs pyhash w nfs mnt (.error e) task).1.error_message
          = some ("Failed to load mapper: " ++ e))
    ∧ (∀ fs w nfs mnt reducer task,
      (GridMR.execute_reduce_task fs w nfs mnt reducer task).1.status = TaskStatus.completed
      ∨ (GridMR.execute_reduce_task fs w nfs mnt reducer task).1.status = TaskStatus.failed)
    ∧ (∀ fs w nfs mnt reducer task e,
      (GridMR.reduceLines reducer (GridMR.reduceParsed fs nfs mnt task)).2 = some e →
      (GridMR.execute_reduce_task fs w nfs mnt reducer task).1.status = TaskStatus.failed
      ∧ (GridMR.execute_reduce_task fs w nfs mnt reducer task).1.error_message = some e)
    ∧ (∀ fs w nfs mnt task e,
      (GridMR.execute_reduce_task_from_url fs w nfs mnt (.error e) task).1.status
          = TaskStatus.failed
      ∧ (GridMR.execute_reduce_task_from_url fs w nfs mnt (.error e) task).1.error_message
          = some ("Failed to load reducer: " ++ e)) := by
  refine ⟨?_, ?_, ?_, ?_, ?_, ?_, ?_⟩
  · intro fs pyhash w nfs mnt mapper task
    cases hfs : fs (inboundPath nfs mnt task.input_file) with
    | none => right; simp [GridMR.execute_map_task, hfs]
    | some lines =>
      cases hrc : runCalls mapper (mapperCalls lines task.split_start task.split_end) with
      | error e => right; simp [GridMR.execute_map_task, hfs, hrc]
      | ok kvs => left; simp [GridMR.execute_map_task, hfs, hrc]
  · intro fs pyhash w nfs mnt mapper task hfs
    constructor <;> simp [GridMR.execute_map_task, hfs]
  · intro fs pyhash w nfs mnt mapper task lines e hfs hrc
    constructor <;> simp [GridMR.execute_map_task, hfs, hrc]
  · intro fs pyhash w nfs mnt task e
    constructor <;> simp [GridMR.execute_map_task_from_url]
  · intro fs w nfs mnt reducer task
    cases hr : (reduceLines reducer (reduceParsed fs nfs mnt task)).2 with
    | none => left; simp [GridMR.execute_reduce_task, hr]
    | some e => right; simp [GridMR.execute_reduce_task, hr]
  · intro fs w nfs mnt reducer task e hr
    constructor <;> simp [GridMR.execute_reduce_task, hr]
  · intro fs w nfs mnt task e
    constructor <;> simp [GridMR.execute_reduce_task_from_url]

/-- Witness for C4: a concrete missing-input map task, a concrete failed
loader, and a concrete raising reducer each produce a failed result
carrying the error message. -/
theorem GridMR.task_failure_surfaced_in_result_witness :
    ((GridMR.execute_map_task (fun _ => none) (fun _ => 0) "w" false "/mnt/gridmr"
        (fun _ _ => .ok []) { task_id := "j_map_0", input_file := "/in", output_dir := "/o" }
      ).1.error_message = some (GridMR.fileNotFoundMsg "/in"))
    ∧ ((GridMR.execute_map_task_from_url (fun _ => none) (fun _ => 0) "w" false "/mnt/gridmr"
        (.error "404") { task_id := "j_map_0", input_file := "/in", output_dir := "/o" }
      ).1.error_message = some "Failed to load mapper: 404")
    ∧ ((GridMR.execute_reduce_task (fun _ => some ["k\tv\n"]) "w" false "/mnt/gridmr"
        (fun _ _ => .error "boom")
        { task_id := "j_reduce_0", input_files := ["/f"], output_file := "/a/b/c.txt",
          partition_id := 0 }).1.error_message = some "boom") :=
  ⟨(GridMR.task_failure_surfaced_in_result.2.1 (fun _ => none) (fun _ => 0) "w" false
      "/mnt/gridmr" (fun _ _ => .ok [])
      { task_id := "j_map_0", input_file := "/in", output_dir := "/o" } (by decide)).2,
   (GridMR.task_failure_surfaced_in_result.2.2.2.1 (fun _ => none) (fun _ => 0) "w" false
      "/mnt/gridmr" { task_id := "j_map_0", input_file := "/in", output_dir := "/o" } "404").2,
   (GridMR.task_failure_surfaced_in_result.2.2.2.2.2.1 (fun _ => some ["k\tv\n"]) "w" false
      "/mnt/gridmr" (fun _ _ => .error "boom")
      { task_id := "j_reduce_0", input_files := ["/f"], output_file := "/a/b/c.txt",
        partition_id := 0 } "boom" (by decide)).2⟩
namespace GridMR

/-! ## Facts about `pyReplace` -/

theorem isPrefixOf_self_append : ∀ (p t : List Char), p.isPrefixOf (p ++ t) = true
  | [], t => by cases t <;> rfl
  | c :: p, t => by
    simp only [List.cons_append, List.isPrefixOf, beq_self_eq_true, Bool.true_and]
    exact isPrefixOf_self_append p t

theorem pyReplaceAux_nil (old new : List Char) (f : Nat) :
    pyReplaceAux old new f [] = [] := by
  cases f <;> rfl

theorem pyReplaceAux_fuelFree (old new : List Char) (hold : old ≠ []) :
    ∀ (f g : Nat) (l : List Char), l.length ≤ f → l.length ≤ g →
      pyReplaceAux old new f l = pyReplaceAux old new g l
  | f, g, [], _, _ => by rw [pyReplaceAux_nil, pyReplaceAux_nil]
  | 0, _, c :: cs, hf, _ => by simp at hf
  | _ + 1, 0, c :: cs, _, hg => by simp at hg
  | f + 1, g + 1, c :: cs, hf, hg => by
    simp only [List.length_cons, Nat.add_le_add_iff_right] at hf hg
    have h1 : 1 ≤ old.length := by
      cases old with
      | nil => exact absurd rfl hold
      | cons _ _ => simp
    by_cases hp : old.isPrefixOf (c :: cs) = true
    · have hlen : ((c :: cs).drop old.length).length ≤ f := by
        simp only [List.length_drop, List.length_cons]
        omega
      have hlen' : ((c :: cs).drop old.length).length ≤ g := by
        simp only [List.length_drop, List.length_cons]
        omega
      simp only [pyReplaceAux, hp, if_true]
      rw [pyReplaceAux_fuelFree old new hold f g _ hlen hlen']
    · simp only [pyReplaceAux, hp, Bool.false_eq_true, if_false]
      rw [pyReplaceAux_fuelFree old new hold f g cs hf hg]

theorem pyReplaceAux_of_not_contains (old new : List Char) :
    ∀ (f : Nat) (l : List Char), containsSub old l = false → pyReplaceAux old new f l = l
  | f, [], _ => pyReplaceAux_nil old new f
  | 0, c :: cs, _ => rfl
  | f + 1, c :: cs, h => by
    have hsplit := h
    simp only [containsSub, Bool.or_eq_false_iff] at hsplit
    simp only [pyReplaceAux, hsplit.1, Bool.false_eq_true, if_false]
    rw [pyReplaceAux_of_not_contains old new f cs hsplit.2]

theorem pyReplaceAux_head (old new rest : List Char) (hold : old ≠ [])
    (hrest : containsSub old rest = false) :
    pyReplaceAux old new (old ++ rest).length (old ++ rest) = new ++ rest := by
  cases old with
  | nil => exact absurd rfl hold
  | cons o os =>
    have hpre : (o :: os).isPrefixOf (o :: (os ++ rest)) = true := by
      have := isPrefixOf_self_append (o :: os) rest
      rwa [List.cons_append] at this
    rw [List.cons_append, List.length_cons]
    simp only [pyReplaceAux, hpre, if_true]
    rw [List.length_cons, List.drop_succ_cons, List.drop_left]
    rw [pyReplaceAux_fuelFree (o :: os) new (by simp) (os ++ rest).length rest.length rest
        (by simp) (le_refl _),
      pyReplaceAux_of_not_contains (o :: os) new rest.length rest hrest]

/-- Replacing in `old ++ rest` when `old` does not occur in `rest`:
exactly the front occurrence is rewritten. -/
theorem pyReplace_head (old new rest : String) (hold : old.data ≠ [])
    (hrest : containsSub old.data rest.data = false) :
    pyReplace (old ++ rest) old new = new ++ rest := by
  show (⟨pyReplaceAux old.data new.data (old ++ rest).data.length (old ++ rest).data⟩ : String)
      = new ++ rest
  have h : (old ++ rest).data = old.data ++ rest.data := rfl
  rw [h, pyReplaceAux_head old.data new.data rest.data hold hrest]
  rfl

/-- Strings with no occurrence of `old` are untouched. -/
theorem pyReplace_of_not_contains (s old new : String)
    (h : containsSub old.data s.data = false) : pyReplace s old new = s := by
  show (⟨pyReplaceAux old.data new.data s.data.length s.data⟩ : String) = s
  rw [pyReplaceAux_of_not_contains old.data new.data s.data.length s.data h]

theorem nil_isPrefixOf (l : List Char) : List.isPrefixOf [] l = true := by
  cases l <;> rfl

theorem isPrefixOf_iff_take : ∀ (p l : List Char),
    p.isPrefixOf l = true ↔ l.take p.length = p
  | [], l => by simp [nil_isPrefixOf]
  | c :: p, [] => by simp [List.isPrefixOf]
  | c :: p, d :: l => by
    simp only [List.isPrefixOf, List.length_cons, List.take_succ_cons,
      Bool.and_eq_true, beq_iff_eq, isPrefixOf_iff_take p l, List.cons.injEq]
    constructor
    · rintro ⟨h1, h2⟩
      exact ⟨h1.symm, h2⟩
    · rintro ⟨h1, h2⟩
      exact ⟨h1.symm, h2⟩

theorem isPrefixOf_append_left (p : List Char) (z : List Char) :
    ∀ t, p.isPrefixOf t = true → p.isPrefixOf (t ++ z) = true := by
  intro t h
  rw [isPrefixOf_iff_take] at h ⊢
  have hlen : p.length ≤ t.length := by
    have := congrArg List.length h
    simp only [List.length_take] at this
    omega
  rw [List.take_append_of_le_length hlen, h]

theorem containsSub_nil_pat (l : List Char) : containsSub [] l = true := by
  cases l with
  | nil => rfl
  | cons c cs => simp [containsSub, nil_isPrefixOf]

theorem containsSub_of_isPrefixOf (p : List Char) :
    ∀ l, p.isPrefixOf l = true → containsSub p l = true := by
  intro l h
  cases l with
  | nil =>
    cases p with
    | nil => rfl
    | cons c cs => simp [List.isPrefixOf] at h
  | cons c cs => simp [containsSub, h]

theorem containsSub_append_left (p z : List Char) :
    ∀ t, containsSub p t = true → containsSub p (t ++ z) = true
  | [], h => by
    have hp : p = [] := by
      cases p with
      | nil => rfl
      | cons c cs => simp [containsSub, List.isEmpty] at h
    rw [hp]
    exact containsSub_nil_pat z
  | c :: t, h => by
    simp only [containsSub, Bool.or_eq_true] at h
    rcases h with h | h
    · have := isPrefixOf_append_left p z (c :: t) h
      rw [List.cons_append] at this
      simp [containsSub, this]
    · simp [containsSub, containsSub_append_left p z t h]

theorem containsSub_cons_false (p : List Char) (c : Char) (cs : List Char)
    (h : containsSub p (c :: cs) = false) : containsSub p cs = false := by
  simp only [containsSub, Bool.or_eq_false_iff] at h
  exact h.2

theorem containsSub_drop (p : List Char) :
    ∀ (l : List Char) (n : Nat), containsSub p l = false → containsSub p (l.drop n) = false
  | [], n, h => by simpa using h
  | c :: cs, 0, h => h
  | c :: cs, n + 1, h => by
    rw [List.drop_succ_cons]
    exact containsSub_drop p cs n (containsSub_cons_false p c cs h)

theorem append_drop_of_isPrefixOf (p l : List Char) (h : p.isPrefixOf l = true) :
    p ++ l.drop p.length = l := by
  rw [isPrefixOf_iff_take] at h
  have hsplit := List.take_append_drop p.length l
  rw [h] at hsplit
  exact hsplit

/-- One greedy replacement step on a list that begins with `old`,
whatever follows. -/
theorem pyReplaceAux_headStep (old new X : List Char) (hold : old ≠ []) :
    pyReplaceAux old new (old ++ X).length (old ++ X)
      = new ++ pyReplaceAux old new X.length X := by
  cases old with
  | nil => exact absurd rfl hold
  | cons o os =>
    have hpre : (o :: os).isPrefixOf (o :: (os ++ X)) = true := by
      have := isPrefixOf_self_append (o :: os) X
      rwa [List.cons_append] at this
    rw [List.cons_append, List.length_cons]
    simp only [pyReplaceAux, hpre, if_true]
    rw [List.length_cons, List.drop_succ_cons, List.drop_left]
    rw [pyReplaceAux_fuelFree (o :: os) new (by simp) (os ++ X).length X.length X
        (by simp) (le_refl _)]

/-- The heart of the round trip: after the forward replacement, `b`
cannot occur starting inside or overlapping original text — it would
either be an occurrence of `b` in the original (excluded) or force a
nontrivial border of `b` (excluded by `hNB`). -/
theorem noPrefixOf_pyReplaceAux (a b : List Char)
    (hNB : ∀ k, k < b.length → 1 ≤ k → b.drop (b.length - k) ≠ b.take k) :
    ∀ (l t : List Char), containsSub b (t ++ l) = false → t ≠ [] →
      b.isPrefixOf (t ++ pyReplaceAux a b l.length l) = false
  | [], t, hc, _ => by
    rw [pyReplaceAux_nil, List.append_nil]
    rw [List.append_nil] at hc
    rcases Bool.eq_false_or_eq_true (b.isPrefixOf t) with h | h
    · exfalso
      have hmem := containsSub_of_isPrefixOf b t h
      rw [hc] at hmem
      cases hmem
    · exact h
  | c :: cs, t, hc, ht => by
    rcases Bool.eq_false_or_eq_true
        (b.isPrefixOf (t ++ pyReplaceAux a b (c :: cs).length (c :: cs))) with hgoal | hgoal
    · exfalso
      simp only [List.length_cons, pyReplaceAux] at hgoal
      by_cases hp : a.isPrefixOf (c :: cs) = true
      · rw [if_pos hp] at hgoal
        -- the text after `t` starts with an inserted `b`
        rw [isPrefixOf_iff_take, List.take_append_eq_append_take] at hgoal
        by_cases hlen : b.length ≤ t.length
        · -- `b` would lie wholly inside `t`, i.e. inside the original text
          rw [Nat.sub_eq_zero_of_le hlen, List.take_zero, List.append_nil] at hgoal
          have hmem := containsSub_append_left b (c :: cs) t
            (containsSub_of_isPrefixOf b t ((isPrefixOf_iff_take b t).mpr hgoal))
          rw [hc] at hmem
          cases hmem
        · -- `b` would straddle `t` and the inserted copy: a nontrivial border
          have htb : t.length < b.length := Nat.lt_of_not_le hlen
          have ht1 : 1 ≤ t.length := by
            cases t with
            | nil => exact absurd rfl ht
            | cons _ _ => simp
          rw [List.take_of_length_le (Nat.le_of_lt htb),
            List.take_append_of_le_length (Nat.sub_le _ _)] at hgoal
          have hdrop : b.drop t.length = b.take (b.length - t.length) := by
            conv_lhs => rw [← hgoal]
            exact List.drop_left t (b.take (b.length - t.length))
          have hk := hNB (b.length - t.length) (by omega) (by omega)
          rw [show b.length - (b.length - t.length) = t.length by omega] at hk
          exact hk hdrop
      · rw [if_neg (by simp [hp])] at hgoal
        -- untouched character: shift it into `t` and recurse
        have hrec := noPrefixOf_pyReplaceAux a b hNB cs (t ++ [c])
          (by rwa [List.append_assoc, List.singleton_append]) (by simp)
        rw [List.append_assoc, List.singleton_append] at hrec
        rw [hrec] at hgoal
        cases hgoal
    · exact hgoal

/-- Round trip of the greedy replacement: replacing `a` by `b` and then
`b` by `a` restores any list in which `b` does not occur, provided `b`
has no nontrivial border. -/
theorem pyReplaceAux_roundtrip (a b : List Char) (ha : a ≠ []) (hb : b ≠ [])
    (hNB : ∀ k, k < b.length → 1 ≤ k → b.drop (b.length - k) ≠ b.take k) :
    ∀ (n : Nat) (l : List Char), l.length ≤ n → containsSub b l = false →
      pyReplaceAux b a (pyReplaceAux a b l.length l).length (pyReplaceAux a b l.length l)
        = l
  | n, [], _, _ => by rw [pyReplaceAux_nil, pyReplaceAux_nil]
  | 0, c :: cs, hn, _ => by simp at hn
  | n + 1, c :: cs, hn, hc => by
    have ha1 : 1 ≤ a.length := by
      cases a with
      | nil => exact absurd rfl ha
      | cons _ _ => simp
    by_cases hp : a.isPrefixOf (c :: cs) = true
    · have hm : ((c :: cs).drop a.length).length ≤ n := by
        simp only [List.length_drop, List.length_cons]
        simp only [List.length_cons] at hn
        omega
      have h1 : pyReplaceAux a b (c :: cs).length (c :: cs)
          = b ++ pyReplaceAux a b ((c :: cs).drop a.length).length
              ((c :: cs).drop a.length) := by
        simp only [List.length_cons, pyReplaceAux, hp, if_true]
        rw [pyReplaceAux_fuelFree a b ha cs.length ((c :: cs).drop a.length).length _
          (by simp only [List.length_drop, List.length_cons]; omega) (le_refl _)]
      rw [h1, pyReplaceAux_headStep b a _ hb,
        pyReplaceAux_roundtrip a b ha hb hNB n ((c :: cs).drop a.length) hm
          (containsSub_drop b (c :: cs) a.length hc)]
      exact append_drop_of_isPrefixOf a (c :: cs) hp
    · have h1 : pyReplaceAux a b (c :: cs).length (c :: cs)
          = c :: pyReplaceAux a b cs.length cs := by
        simp only [List.length_cons, pyReplaceAux, hp, Bool.false_eq_true, if_false]
      rw [h1]
      have hnp : b.isPrefixOf (c :: pyReplaceAux a b cs.length cs) = false := by
        have := noPrefixOf_pyReplaceAux a b hNB cs [c]
          (by rwa [List.singleton_append]) (by simp)
        rwa [List.singleton_append] at this
      simp only [List.length_cons, pyReplaceAux, hnp, Bool.false_eq_true, if_false]
      rw [pyReplaceAux_roundtrip a b ha hb hNB n cs
        (by simp only [List.length_cons] at hn; omega)
        (containsSub_cons_false b c cs hc)]

/-- String form of the round trip. -/
theorem pyReplace_roundtrip (s a b : String) (ha : a.data ≠ []) (hb : b.data ≠ [])
    (hNB : ∀ k, k < b.data.length → 1 ≤ k →
      b.data.drop (b.data.length - k) ≠ b.data.take k)
    (hs : containsSub b.data s.data = false) :
    pyReplace (pyReplace s a b) b a = s := by
  show (⟨pyReplaceAux b.data a.data (pyReplace s a b).data.length (pyReplace s a b).data⟩
      : String) = s
  have hdata : (pyReplace s a b).data = pyReplaceAux a.data b.data s.data.length s.data :=
    rfl
  rw [hdata,
    pyReplaceAux_roundtrip a.data b.data ha hb hNB s.data.length s.data (le_refl _) hs]

end GridMR
/-- C7 counterexample: the rewrite applied on the NFS path is Python
`str.replace`, which substitutes every occurrence, not only a leading
one — on `"/x/shared/gridmr/y"` the inbound rewrite fires even though
the prefix is not leading — and the outbound rewrite applied after the
inbound rewrite does not restore a canonical path that itself contains
the local-mount string `"/mnt/gridmr"`. -/
theorem GridMR.path_rewrite_not_leading_only :
    GridMR.inboundPath true "/mnt/gridmr" "/x/shared/gridmr/y"
      ≠ GridMR.leadingOnlyRewrite "/shared/gridmr" "/mnt/gridmr" "/x/shared/gridmr/y"
    ∧ GridMR.outboundPath true "/mnt/gridmr"
        (GridMR.inboundPath true "/mnt/gridmr" "/shared/gridmr/a/mnt/gridmr")
      ≠ "/shared/gridmr/a/mnt/gridmr" := by
  constructor
  · intro h
    have : ("/x/mnt/gridmr/y" : String) = "/x/shared/gridmr/y" := by
      have h1 : GridMR.inboundPath true "/mnt/gridmr" "/x/shared/gridmr/y"
          = "/x/mnt/gridmr/y" := by decide
      have h2 : GridMR.leadingOnlyRewrite "/shared/gridmr" "/mnt/gridmr" "/x/shared/gridmr/y"
          = "/x/shared/gridmr/y" := by decide
      rw [h1, h2] at h
      exact h
    exact absurd this (by decide)
  · intro h
    have h1 : GridMR.outboundPath true "/mnt/gridmr"
        (GridMR.inboundPath true "/mnt/gridmr" "/shared/gridmr/a/mnt/gridmr")
        = "/shared/gridmr/a/shared/gridmr" := by decide
    rw [h1] at h
    exact absurd h (by decide)

/-- C7 amended: path rewriting is pure string substitution of every
occurrence of the substring (Python `str.replace`); it is the identity
on every path when shared storage (NFS) is disabled; and the outbound
rewrite applied after the inbound rewrite restores the original path
for every path — in particular every canonical path — in which the
local-mount string `"/mnt/gridmr"` does not occur (the shared root may
occur anywhere in it, leading occurrence or not). -/
theorem GridMR.path_rewrite_replace_all (nfs_mount p q : String)
    (hq : GridMR.containsSub "/mnt/gridmr".data q.data = false) :
    GridMR.inboundPath false nfs_mount p = p
    ∧ GridMR.outboundPath false nfs_mount p = p
    ∧ GridMR.outboundPath true "/mnt/gridmr" (GridMR.inboundPath true "/mnt/gridmr" q)
        = q := by
  refine ⟨rfl, rfl, ?_⟩
  show GridMR.pyReplace (GridMR.pyReplace q "/shared/gridmr" "/mnt/gridmr")
      "/mnt/gridmr" "/shared/gridmr" = q
  exact GridMR.pyReplace_roundtrip q "/shared/gridmr" "/mnt/gridmr"
    (by decide) (by decide) (by decide) hq

/-- Witness for C7 amended at a canonical path whose remainder repeats
the shared root: the round trip restores it. -/
theorem GridMR.path_rewrite_replace_all_witness :
    GridMR.inboundPath false "/mnt/gridmr" "/shared/gridmr/jobs/j/f.txt"
      = "/shared/gridmr/jobs/j/f.txt"
    ∧ GridMR.outboundPath true "/mnt/gridmr"
        (GridMR.inboundPath true "/mnt/gridmr" "/shared/gridmr/a/shared/gridmr")
      = "/shared/gridmr/a/shared/gridmr" :=
  ⟨(GridMR.path_rewrite_replace_all "/mnt/gridmr" "/shared/gridmr/jobs/j/f.txt"
      "/shared/gridmr/a/shared/gridmr" (by decide)).1,
   (GridMR.path_rewrite_replace_all "/mnt/gridmr" "/shared/gridmr/jobs/j/f.txt"
      "/shared/gridmr/a/shared/gridmr" (by decide)).2.2⟩

/-- C5 counterexample: on a module declaring `BMapper` before `AMapper`,
`_find_program_class` returns `AMapper` — the first match in the
name-sorted order produced by `inspect.getmembers` — not the first in
declaration order, which would be `BMapper`. -/
theorem GridMR.find_program_class_not_declaration_order :
    (GridMR.find_program_class GridMR.modC5).toOption.map (fun r => r.1.name)
      ≠ (GridMR.find_program_class_declSpec GridMR.modC5).toOption.map (fun r => r.1.name)
    ∧ (GridMR.find_program_class GridMR.modC5).toOption.map (fun r => r.1.name)
      = some "AMapper"
    ∧ (GridMR.find_program_class_declSpec GridMR.modC5).toOption.map (fun r => r.1.name)
      = some "BMapper" := by
  refine ⟨?_, by decide, by decide⟩
  intro h
  have h1 : (GridMR.find_program_class GridMR.modC5).toOption.map (fun r => r.1.name)
      = some "AMapper" := by decide
  have h2 : (GridMR.find_program_class_declSpec GridMR.modC5).toOption.map (fun r => r.1.name)
      = some "BMapper" := by decide
  rw [h1, h2] at h
  exact absurd h (by decide)

/-- C5 amended: loading fails (an `ImportError` is raised) iff the
module defines no concrete class implementing the requested interface;
otherwise the loader returns the matching class that is first in
alphabetical order of class name (`inspect.getmembers` sorts members by
name), and the multiple-classes warning is logged iff at least two
matching classes exist. -/
theorem GridMR.find_program_class_alphabetical (declared : List GridMR.PyClass) :
    ((∃ msg, GridMR.find_program_class declared = .error msg)
      ↔ declared.filter GridMR.matchesTarget = [])
    ∧ (∀ c warn, GridMR.find_program_class declared = .ok (c, warn) →
        c ∈ declared ∧ GridMR.matchesTarget c = true
        ∧ (∀ c' ∈ declared, GridMR.matchesTarget c' = true →
            GridMR.strLt c'.name c.name = false)
        ∧ (warn = true ↔ 2 ≤ (declared.filter GridMR.matchesTarget).length)) := by
  have hperm : ((GridMR.getmembersClasses declared).filter GridMR.matchesTarget).Perm
      (declared.filter GridMR.matchesTarget) :=
    (GridMR.perm_sortByKey (fun c : GridMR.PyClass => c.name) declared).filter _
  constructor
  · constructor
    · rintro ⟨msg, hmsg⟩
      cases hfl : (GridMR.getmembersClasses declared).filter GridMR.matchesTarget with
      | nil =>
        have := hperm.length_eq
        rw [hfl] at this
        exact List.eq_nil_of_length_eq_zero this.symm
      | cons c0 rest =>
        rw [GridMR.find_program_class, hfl] at hmsg
        cases hmsg
    · intro hnil
      have hlen := hperm.length_eq
      rw [hnil] at hlen
      have hfl : (GridMR.getmembersClasses declared).filter GridMR.matchesTarget = [] :=
        List.eq_nil_of_length_eq_zero hlen
      rw [GridMR.find_program_class, hfl]
      exact ⟨_, rfl⟩
  · intro c warn h
    cases hfl : (GridMR.getmembersClasses declared).filter GridMR.matchesTarget with
    | nil =>
      rw [GridMR.find_program_class, hfl] at h
      cases h
    | cons c0 rest =>
      rw [GridMR.find_program_class, hfl] at h
      have hc : c = c0 ∧ warn = !rest.isEmpty := by
        cases h
        exact ⟨rfl, rfl⟩
      rcases hc with ⟨rfl, rfl⟩
      have hmemS : c ∈ (GridMR.getmembersClasses declared).filter GridMR.matchesTarget := by
        rw [hfl]
        exact List.mem_cons_self c rest
      have hmemD : c ∈ declared.filter GridMR.matchesTarget := hperm.mem_iff.mp hmemS
      rcases List.mem_filter.mp hmemD with ⟨hmem, hmatch⟩
      refine ⟨hmem, hmatch, ?_, ?_⟩
      · intro c' hc' hm'
        have hc'S : c' ∈ (GridMR.getmembersClasses declared).filter GridMR.matchesTarget :=
          hperm.mem_iff.mpr (List.mem_filter.mpr ⟨hc', hm'⟩)
        rw [hfl] at hc'S
        rcases List.mem_cons.mp hc'S with rfl | htail
        · exact GridMR.strLt_irrefl c'.name
        · have hpw : ((GridMR.getmembersClasses declared).filter GridMR.matchesTarget).Pairwise
              (fun x y => GridMR.strLt ((fun c : GridMR.PyClass => c.name) y)
                ((fun c : GridMR.PyClass => c.name) x) = false) :=
            (GridMR.sortByKey_pairwise (fun c : GridMR.PyClass => c.name) declared).filter _
          rw [hfl] at hpw
          exact (List.pairwise_cons.mp hpw).1 c' htail
      · have hlen : (declared.filter GridMR.matchesTarget).length = rest.length + 1 := by
          rw [← hperm.length_eq, hfl, List.length_cons]
        rw [hlen]
        cases rest with
        | nil => simp
        | cons r rs => simp

/-- Witness for C5 amended, applied to the two-mapper module `modC5`:
the returned class is a member, matches, is alphabetically least, and
the warning fires because two matches exist. -/
theorem GridMR.find_program_class_alphabetical_witness :
    ({ name := "AMapper", inheritsTarget := true, isBaseItself := false,
       definedInModule := true } : GridMR.PyClass) ∈ GridMR.modC5
    ∧ ((true : Bool) = true ↔ 2 ≤ (GridMR.modC5.filter GridMR.matchesTarget).length) :=
  have hok : GridMR.find_program_class GridMR.modC5 =
      .ok ({ name := "AMapper", inheritsTarget := true, isBaseItself := false,
             definedInModule := true }, true) := by rfl
  ⟨((GridMR.find_program_class_alphabetical GridMR.modC5).2 _ true hok).1,
   ((GridMR.find_program_class_alphabetical GridMR.modC5).2 _ true hok).2.2.2⟩
namespace GridMR

/-! ## Facts about the mapper call list -/

theorem pyEnumerate_length {α : Type} : ∀ (l : List α) (s : Nat),
    (pyEnumerate s l).length = l.length
  | [], _ => rfl
  | _ :: xs, s => by
    simp only [pyEnumerate, List.length_cons, pyEnumerate_length xs (s + 1)]

theorem pyEnumerate_get {α : Type} :
    ∀ (l : List α) (s i : Nat) (h : i < (pyEnumerate s l).length) (h' : i < l.length),
      (pyEnumerate s l).get ⟨i, h⟩ = (s + i, l.get ⟨i, h'⟩)
  | [], _, i, _, h' => by simp at h'
  | x :: xs, s, 0, _, _ => by simp [pyEnumerate]
  | x :: xs, s, i + 1, h, h' => by
    simp only [pyEnumerate, List.get_cons_succ]
    rw [pyEnumerate_get xs (s + 1) i _ (by simpa using h')]
    simp [Nat.add_assoc, Nat.add_comm 1 i]

theorem mapperCallsGetAux (sl : List String) (s i : Nat)
    (h : i < ((pyEnumerate s sl).map (fun p => (p.1, pyStrip p.2))).length)
    (h' : i < sl.length) :
    ((pyEnumerate s sl).map (fun p => (p.1, pyStrip p.2))).get ⟨i, h⟩
      = (s + i, pyStrip (sl.get ⟨i, h'⟩)) := by
  have hlen : i < (pyEnumerate s sl).length := by
    rw [pyEnumerate_length]
    exact h'
  have hmap : ((pyEnumerate s sl).map (fun p => (p.1, pyStrip p.2))).get ⟨i, h⟩
      = (fun p : Nat × String => (p.1, pyStrip p.2)) ((pyEnumerate s sl).get ⟨i, hlen⟩) := by
    simp [List.get_eq_getElem, List.getElem_map]
  rw [hmap, pyEnumerate_get sl s i hlen h']

theorem runCalls_congr (mapper mapper' : Nat → String → Except String (List KeyValue)) :
    ∀ calls : List (Nat × String),
      (∀ p ∈ calls, mapper p.1 p.2 = mapper' p.1 p.2) →
      runCalls mapper calls = runCalls mapper' calls
  | [], _ => rfl
  | (i, v) :: rest, h => by
    simp only [runCalls]
    rw [h (i, v) (List.mem_cons_self _ _),
      runCalls_congr mapper mapper' rest (fun p hp => h p (List.mem_cons_of_mem _ hp))]

end GridMR

/-- C8 counterexample: for the input line `"  a\n"` the mapper receives
the value `"a"` — the code passes `line.strip()`, which removes leading
and trailing whitespace — not `"  a"` as the claim's "without its
trailing newline, otherwise unchanged" requires. -/
theorem GridMR.mapper_value_not_only_newline_stripped :
    GridMR.mapperCalls ["  a\n"] 0 none ≠ GridMR.mapperCallsSpec ["  a\n"] 0 none
    ∧ GridMR.mapperCalls ["  a\n"] 0 none = [(0, "a")]
    ∧ GridMR.mapperCallsSpec ["  a\n"] 0 none = [(0, "  a")] := by
  refine ⟨?_, by decide, by decide⟩
  intro h
  have h1 : GridMR.mapperCalls ["  a\n"] 0 none = [(0, "a")] := by decide
  have h2 : GridMR.mapperCallsSpec ["  a\n"] 0 none = [(0, "  a")] := by decide
  rw [h1, h2] at h
  exact absurd h (by decide)

/-- C8 amended: for every line a map task processes, the mapper is
invoked once per line of the slice `lines[split_start:end]`, with key
the integer line index counting from `split_start`, and value the line's
text with leading and trailing whitespace stripped (Python
`str.strip()`, which in particular removes the trailing newline); the
emission loop queries the mapper at exactly these calls. -/
theorem GridMR.mapper_calls_enumerated_stripped (lines : List String) (s : Nat)
    (e : Option Nat) :
    (GridMR.mapperCalls lines s e).length = (GridMR.pySlice lines s e).length
    ∧ (∀ i (h1 : i < (GridMR.mapperCalls lines s e).length)
         (h2 : i < (GridMR.pySlice lines s e).length),
        (GridMR.mapperCalls lines s e).get ⟨i, h1⟩
          = (s + i, GridMR.pyStrip ((GridMR.pySlice lines s e).get ⟨i, h2⟩)))
    ∧ (∀ mapper mapper' : Nat → String → Except String (List GridMR.KeyValue),
        (∀ p ∈ GridMR.mapperCalls lines s e, mapper p.1 p.2 = mapper' p.1 p.2) →
        GridMR.runCalls mapper (GridMR.mapperCalls lines s e)
          = GridMR.runCalls mapper' (GridMR.mapperCalls lines s e)) := by
  refine ⟨?_, ?_, ?_⟩
  · rw [GridMR.mapperCalls, List.length_map, GridMR.pyEnumerate_length]
  · intro i h1 h2
    exact GridMR.mapperCallsGetAux (GridMR.pySlice lines s e) s i h1 h2
  · intro mapper mapper' h
    exact GridMR.runCalls_congr mapper mapper' _ h

/-- Witness for C8 amended at `lines = ["x\n", " y \n"]` with
`split_start = 1`: the only call is `(1, "y")`, the stripped second
line keyed by its index in the file. -/
theorem GridMR.mapper_calls_enumerated_stripped_witness :
    (GridMR.mapperCalls ["x\n", " y \n"] 1 none).get ⟨0, by decide⟩
      = (1 + 0, GridMR.pyStrip ((GridMR.pySlice ["x\n", " y \n"] 1 none).get ⟨0, by decide⟩)) :=
  (GridMR.mapper_calls_enumerated_stripped ["x\n", " y \n"] 1 none).2.1 0 (by decide) (by decide)
/-- C9: in `shuffle_and_sort`, a missing (non-existent) input file is
treated exactly as an empty file — the run succeeds (the function is
total) and produces the same output, written and returned paths
included, as the same run with that file absent from the list — and a
partition with no records still produces an output file, which is
empty. -/
theorem GridMR.shuffle_missing_file_as_empty (fs : String → Option (List String))
    (use_nfs : Bool) (nfs_mount : String) (files1 files2 : List String)
    (missing out : String)
    (h : fs (GridMR.inboundPath use_nfs nfs_mount missing) = none) :
    GridMR.shuffle_and_sort fs use_nfs nfs_mount (files1 ++ missing :: files2) out
      = GridMR.shuffle_and_sort fs use_nfs nfs_mount (files1 ++ files2) out
    ∧ (∀ files, GridMR.collectRecords fs use_nfs nfs_mount files = [] →
        (GridMR.shuffle_and_sort fs use_nfs nfs_mount files out).1 = []) := by
  constructor
  · have hc : GridMR.collectRecords fs use_nfs nfs_mount (files1 ++ missing :: files2)
        = GridMR.collectRecords fs use_nfs nfs_mount (files1 ++ files2) := by
      simp only [GridMR.collectRecords, List.map_append, List.map_cons,
        List.flatMap_append, List.flatMap_cons, h]
      simp
    simp only [GridMR.shuffle_and_sort, hc]
  · intro files hc
    simp only [GridMR.shuffle_and_sort, hc]
    rfl

/-- Witness for C9: with a filesystem holding only `/d/f1`, the file
`/d/nope` in the middle of the list behaves as if absent, and an
all-missing list yields an empty (but still produced) output file. -/
theorem GridMR.shuffle_missing_file_as_empty_witness :
    GridMR.shuffle_and_sort (fun p => if p = "/d/f1" then some ["k\tv\n"] else none)
      false "/mnt/gridmr" (["/d/f1"] ++ "/d/nope" :: []) "/o/s.txt"
      = GridMR.shuffle_and_sort (fun p => if p = "/d/f1" then some ["k\tv\n"] else none)
        false "/mnt/gridmr" (["/d/f1"] ++ []) "/o/s.txt"
    ∧ (GridMR.shuffle_and_sort (fun p => if p = "/d/f1" then some ["k\tv\n"] else none)
        false "/mnt/gridmr" ["/d/nope"] "/o/s.txt").1 = [] :=
  ⟨(GridMR.shuffle_missing_file_as_empty
      (fun p => if p = "/d/f1" then some ["k\tv\n"] else none) false "/mnt/gridmr"
      ["/d/f1"] [] "/d/nope" "/o/s.txt" (by decide)).1,
   (GridMR.shuffle_missing_file_as_empty
      (fun p => if p = "/d/f1" then some ["k\tv\n"] else none) false "/mnt/gridmr"
      ["/d/f1"] [] "/d/nope" "/o/s.txt" (by decide)).2 ["/d/nope"] (by decide)⟩
/-- C1: for every run of `shuffle_and_sort`, the output contains one
line per distinct key of the parsed records — membership of a key among
the output lines is equivalent to its occurrence in the records, and
the keys of the output lines are strictly increasing in the
code-point-lexicographic order Python's `<` gives `str` keys, stated
both with the embedded comparison `strLt` and with the standard
`String` order (so no key repeats) — and the values listed against each key preserve the order in
which those values appeared in the concatenation of the input files
read in the provided `input_files` order. -/
theorem GridMR.shuffle_sorted_grouped_ordered (fs : String → Option (List String))
    (use_nfs : Bool) (nfs_mount : String) (files : List String) (out : String) :
    ((GridMR.shuffle_and_sort fs use_nfs nfs_mount files out).1.Pairwise
      (fun a b : String × List String => GridMR.strLt a.1 b.1 = true))
    ∧ ((GridMR.shuffle_and_sort fs use_nfs nfs_mount files out).1.Pairwise
      (fun a b : String × List String => a.1 < b.1))
    ∧ (∀ k : String,
        (∃ vs, (k, vs) ∈ (GridMR.shuffle_and_sort fs use_nfs nfs_mount files out).1)
        ↔ ∃ kv ∈ GridMR.collectRecords fs use_nfs nfs_mount files, kv.key = k)
    ∧ (∀ kp ∈ (GridMR.shuffle_and_sort fs use_nfs nfs_mount files out).1,
        kp.2 = ((GridMR.collectRecords fs use_nfs nfs_mount files).filter
            (fun kv => decide (kv.key = kp.1))).map (fun kv => kv.value)) := by
  set recs := GridMR.collectRecords fs use_nfs nfs_mount files with hrecs
  set sortedRecs := GridMR.sortByKey (fun kv : GridMR.KeyValue => kv.key) recs with hsorted
  set groups := GridMR.dictGroup (fun kv : GridMR.KeyValue => kv.key)
    (fun kv => kv.value) sortedRecs with hgroups
  set keys := GridMR.sortByKey (fun k : String => k) (groups.map Prod.fst) with hkeys
  have hpairs : (GridMR.shuffle_and_sort fs use_nfs nfs_mount files out).1
      = keys.map (fun k => (k, GridMR.dvals k groups)) := rfl
  have hkeysNodup : keys.Nodup := by
    rw [hkeys]
    exact ((GridMR.perm_sortByKey (fun k : String => k) (groups.map Prod.fst)).nodup_iff).mpr
      (GridMR.nodup_keys_dictGroup _ _ _)
  have hkeysPW : keys.Pairwise (fun x y : String => GridMR.strLt y x = false) := by
    rw [hkeys]
    exact GridMR.sortByKey_pairwise (fun k : String => k) (groups.map Prod.fst)
  have hkeysLt : keys.Pairwise (fun x y : String => GridMR.strLt x y = true) := by
    refine (hkeysPW.and hkeysNodup).imp ?_
    intro a b hab
    rcases Bool.eq_false_or_eq_true (GridMR.strLt a b) with hlt | hlt
    · exact hlt
    · exact absurd (GridMR.strLt_eq_of_not hlt hab.1) hab.2
  have hmemkeys : ∀ k : String, k ∈ keys ↔ ∃ kv ∈ recs, kv.key = k := by
    intro k
    rw [hkeys,
      (GridMR.perm_sortByKey (fun k : String => k) (groups.map Prod.fst)).mem_iff,
      hgroups, GridMR.mem_keys_dictGroup]
    constructor
    · rintro ⟨x, hx, rfl⟩
      exact ⟨x, (GridMR.perm_sortByKey _ recs).mem_iff.mp hx, rfl⟩
    · rintro ⟨kv, hkv, rfl⟩
      exact ⟨kv, (GridMR.perm_sortByKey _ recs).mem_iff.mpr hkv, rfl⟩
  have hvals : ∀ k : String, GridMR.dvals k groups
      = (recs.filter (fun kv => decide (kv.key = k))).map (fun kv => kv.value) := by
    intro k
    rw [hgroups, GridMR.dvals_dictGroup, hsorted,
      GridMR.filter_sortByKey (fun kv : GridMR.KeyValue => kv.key)
        (fun kv => decide (kv.key = k)) k (fun x hx => by simpa using hx)]
  refine ⟨?_, ?_, ?_, ?_⟩
  · rw [hpairs, List.pairwise_map]
    exact hkeysLt
  · rw [hpairs, List.pairwise_map]
    exact hkeysLt.imp (fun h => (GridMR.strLt_iff_lt _ _).mp h)
  · intro k
    rw [hpairs]
    constructor
    · rintro ⟨vs, hvs⟩
      rcases List.mem_map.mp hvs with ⟨k', hk', heq⟩
      have : k' = k := congrArg Prod.fst heq
      exact (hmemkeys k).mp (this ▸ hk')
    · intro hk
      exact ⟨GridMR.dvals k groups,
        List.mem_map.mpr ⟨k, (hmemkeys k).mpr hk, rfl⟩⟩
  · intro kp hkp
    rw [hpairs] at hkp
    rcases List.mem_map.mp hkp with ⟨k, hk, heq⟩
    rw [← heq]
    exact hvals k
/-- Witness for C1: in the shuffled output of `fsC1`'s two files the
line for key `"a"` lists `["2", "3"]`, the values in concatenation
order across the two files. -/
theorem GridMR.shuffle_sorted_grouped_ordered_witness :
    (["2", "3"] : List String)
      = ((GridMR.collectRecords GridMR.fsC1 false "/mnt/gridmr" ["/d/f1", "/d/f2"]).filter
          (fun kv => decide (kv.key = "a"))).map (fun kv => kv.value) :=
  (GridMR.shuffle_sorted_grouped_ordered GridMR.fsC1 false "/mnt/gridmr"
    ["/d/f1", "/d/f2"] "/o/s.txt").2.2.2 ("a", ["2", "3"]) (by decide)
/-- C6: on a successful map task run, the files written are exactly one
`map_<task_id>_part_<p>.txt` per in-memory bucket `p` — a file for
partition `p` exists iff some emitted pair hashes to `p`, i.e. iff the
bucket is non-empty — each containing the bucket stably sorted by key
and serialized as `<k>\t<v>\n` records; within each file the keys are
non-decreasing, and for every key the records preserve emission order
(stability of the sort). -/
theorem GridMR.execute_map_partition_files (fs : String → Option (List String))
    (pyhash : String → Int) (w : String) (nfs : Bool) (mnt : String)
    (mapper : Nat → String → Except String (List GridMR.KeyValue)) (task : GridMR.MapTask)
    (lines : List String) (kvs : List GridMR.KeyValue)
    (h1 : fs (GridMR.inboundPath nfs mnt task.input_file) = some lines)
    (h2 : GridMR.runCalls mapper
        (GridMR.mapperCalls lines task.split_start task.split_end) = .ok kvs) :
    (GridMR.execute_map_task fs pyhash w nfs mnt mapper task).2
      = (GridMR.mapPartitions pyhash kvs).map (fun e =>
          (GridMR.pyJoin
            (GridMR.intermediateMapDir (GridMR.inboundPath nfs mnt task.output_dir)
              (GridMR.jobIdOfTaskId task.task_id))
            (GridMR.mapOutFileName task.task_id e.1),
           (GridMR.sortByKey (fun kv : GridMR.KeyValue => kv.key) e.2).map
             GridMR.serializeKVLine))
    ∧ (∀ e ∈ GridMR.mapPartitions pyhash kvs,
        e.2 = kvs.filter (fun kv => decide
            (GridMR.get_partition pyhash GridMR.defaultNumPartitions kv.key = e.1))
        ∧ (GridMR.sortByKey (fun kv : GridMR.KeyValue => kv.key) e.2).Pairwise
            (fun x y => GridMR.strLt y.key x.key = false)
        ∧ (∀ k, (GridMR.sortByKey (fun kv : GridMR.KeyValue => kv.key) e.2).filter
              (fun kv => decide (kv.key = k))
            = e.2.filter (fun kv => decide (kv.key = k))))
    ∧ (∀ p : Int, (∃ e ∈ GridMR.mapPartitions pyhash kvs, e.1 = p)
        ↔ kvs.filter (fun kv => decide
            (GridMR.get_partition pyhash GridMR.defaultNumPartitions kv.key = p)) ≠ []) := by
  refine ⟨?_, ?_, ?_⟩
  · simp only [GridMR.execute_map_task, h1, h2]
  · intro e he
    refine ⟨?_, ?_, ?_⟩
    · have := GridMR.snd_eq_of_mem_dictGroup
        (fun kv : GridMR.KeyValue => GridMR.get_partition pyhash GridMR.defaultNumPartitions kv.key)
        (fun kv => kv) kvs e he
      simpa using this
    · exact GridMR.sortByKey_pairwise (fun kv : GridMR.KeyValue => kv.key) e.2
    · intro k
      exact GridMR.filter_sortByKey (fun kv : GridMR.KeyValue => kv.key)
        (fun kv => decide (kv.key = k)) k (fun x hx => by simpa using hx) e.2
  · intro p
    have hmem := GridMR.mem_keys_dictGroup
      (fun kv : GridMR.KeyValue => GridMR.get_partition pyhash GridMR.defaultNumPartitions kv.key)
      (fun kv => kv) kvs p
    constructor
    · rintro ⟨e, he, rfl⟩
      have hp : e.1 ∈ (GridMR.mapPartitions pyhash kvs).map Prod.fst :=
        List.mem_map_of_mem Prod.fst he
      rcases hmem.mp hp with ⟨x, hx, hxp⟩
      intro hnil
      have : x ∈ kvs.filter (fun kv => decide
          (GridMR.get_partition pyhash GridMR.defaultNumPartitions kv.key = e.1)) :=
        List.mem_filter.mpr ⟨hx, by simpa using hxp⟩
      rw [hnil] at this
      cases this
    · intro hnil
      rcases List.exists_mem_of_ne_nil _ hnil with ⟨x, hx⟩
      rcases List.mem_filter.mp hx with ⟨hxk, hxp⟩
      have hp : p ∈ (GridMR.mapPartitions pyhash kvs).map Prod.fst :=
        hmem.mpr ⟨x, hxk, by simpa using hxp⟩
      rcases List.mem_map.mp hp with ⟨e, he, rfl⟩
      exact ⟨e, he, rfl⟩

/-- Witness for C6: a concrete successful map run over two lines whose
keys both hash (under the length hash) to partition 1; the bucket
equals the filtered emission list. -/
theorem GridMR.execute_map_partition_files_witness :
    ((1 : Int), [({ key := "a", value := "0" } : GridMR.KeyValue),
      { key := "b", value := "1" }]).2
      = [({ key := "a", value := "0" } : GridMR.KeyValue),
         { key := "b", value := "1" }].filter (fun kv => decide
          (GridMR.get_partition (fun s => (s.length : Int)) GridMR.defaultNumPartitions kv.key
            = (1 : Int))) :=
  ((GridMR.execute_map_partition_files
      (fun p => if p = "/in" then some ["a\n", "b\n"] else none)
      (fun s => (s.length : Int)) "w" false "/mnt/gridmr"
      (fun i v => .ok [{ key := v, value := toString i }])
      { task_id := "j_map_0", input_file := "/in", output_dir := "/o" }
      ["a\n", "b\n"]
      [{ key := "a", value := "0" }, { key := "b", value := "1" }]
      (by decide) (by rfl)).2.1
    ((1 : Int), [{ key := "a", value := "0" }, { key := "b", value := "1" }])
    (by decide)).1
namespace GridMR

/-! ## Facts about reduce-task grouping -/

theorem groupFilesAux_ok :
    ∀ (files : List String) (g res : List (Int × List String)),
      groupFilesAux g files = .ok res →
      res = dictGroupAux Prod.fst Prod.snd g (files.filterMap okPair)
  | [], g, res, h => by
    simp only [groupFilesAux] at h
    cases h
    rfl
  | f :: fs, g, res, h => by
    simp only [groupFilesAux] at h
    cases hpf : partIdOfFile f with
    | none =>
      rw [hpf] at h
      simp only [List.filterMap_cons, okPair, hpf]
      exact groupFilesAux_ok fs g res h
    | some exc =>
      cases exc with
      | error e =>
        rw [hpf] at h
        cases h
      | ok p =>
        rw [hpf] at h
        simp only [List.filterMap_cons, okPair, hpf]
        exact groupFilesAux_ok fs (dictInsert g p f) res h

theorem filter_okPairs_map_snd (p : Int) :
    ∀ files : List String,
      ((files.filterMap okPair).filter (fun q => decide (q.1 = p))).map Prod.snd
        = files.filter (hasPartId p)
  | [] => rfl
  | f :: fs => by
    cases hpf : partIdOfFile f with
    | none =>
      simp only [List.filterMap_cons, okPair, hpf, List.filter_cons, hasPartId]
      exact filter_okPairs_map_snd p fs
    | some exc =>
      cases exc with
      | error e =>
        simp only [List.filterMap_cons, okPair, hpf, List.filter_cons, hasPartId]
        exact filter_okPairs_map_snd p fs
      | ok q =>
        by_cases hq : q = p
        · subst hq
          simp [List.filterMap_cons, okPair, hpf, List.filter_cons, hasPartId,
            filter_okPairs_map_snd q fs]
        · simp only [List.filterMap_cons, okPair, hpf, List.filter_cons, hasPartId,
            decide_eq_true_eq, hq, if_false]
          exact filter_okPairs_map_snd p fs

theorem mem_okPairs (files : List String) (p : Int) :
    (∃ q ∈ files.filterMap okPair, q.1 = p)
      ↔ ∃ f ∈ files, partIdOfFile f = some (.ok p) := by
  constructor
  · rintro ⟨q, hq, rfl⟩
    rcases List.mem_filterMap.mp hq with ⟨f, hf, hok⟩
    refine ⟨f, hf, ?_⟩
    unfold okPair at hok
    cases hpf : partIdOfFile f with
    | none => rw [hpf] at hok; cases hok
    | some exc =>
      cases exc with
      | error e => rw [hpf] at hok; cases hok
      | ok r =>
        rw [hpf] at hok
        cases hok
        rfl
  · rintro ⟨f, hf, hpf⟩
    exact ⟨(p, f), List.mem_filterMap.mpr ⟨f, hf, by simp [okPair, hpf]⟩, rfl⟩

theorem hasPartId_true_iff (p : Int) (f : String) :
    hasPartId p f = true ↔ partIdOfFile f = some (.ok p) := by
  unfold hasPartId
  cases hpf : partIdOfFile f with
  | none => simp
  | some exc =>
    cases exc with
    | error e => simp
    | ok q =>
      simp only [decide_eq_true_eq]
      constructor
      · rintro rfl; rfl
      · intro h; cases h; rfl

end GridMR
/-- C3: on a successful run of `create_reduce_tasks`, the completed map
results' output files are grouped by the partition id parsed from the
`_part_<p>.` filename suffix: the reduce tasks carry pairwise-distinct
partition ids; a reduce task for partition `p` exists iff some file
parses to `p` (none for a partition with zero intermediate files); each
task's `input_files` are exactly the files parsing to its partition id;
and every file parsing to some `p` appears in exactly one reduce task's
`input_files`, whose `partition_id` is `p`. -/
theorem GridMR.create_reduce_tasks_partition_grouping
    (job_id output_dir : String) (completed : List GridMR.TaskResult)
    (tasks : List GridMR.ReduceTask)
    (h : GridMR.create_reduce_tasks job_id output_dir completed = .ok tasks) :
    (tasks.map (fun t => t.partition_id)).Nodup
    ∧ (∀ p : Int, (∃ t ∈ tasks, t.partition_id = p)
        ↔ ∃ f ∈ completed.flatMap (fun r => r.output_files),
            GridMR.partIdOfFile f = some (.ok p))
    ∧ (∀ t ∈ tasks, t.input_files
        = (completed.flatMap (fun r => r.output_files)).filter
            (GridMR.hasPartId t.partition_id))
    ∧ (∀ f p, f ∈ completed.flatMap (fun r => r.output_files) →
        GridMR.partIdOfFile f = some (.ok p) →
        (tasks.filter (fun t => decide (f ∈ t.input_files))).length = 1
        ∧ ∀ t ∈ tasks, f ∈ t.input_files → t.partition_id = p) := by
  set files := completed.flatMap (fun r => r.output_files) with hfiles
  -- extract the grouped partitions from the successful run
  rcases hg : GridMR.groupFilesAux [] files with e | partitions
  · rw [GridMR.create_reduce_tasks, ← hfiles, hg] at h
    cases h
  have hpart : partitions = GridMR.dictGroup Prod.fst Prod.snd (files.filterMap GridMR.okPair) :=
    GridMR.groupFilesAux_ok files [] partitions hg
  have htasks : tasks = partitions.map (fun e =>
      ({ task_id := job_id ++ "_reduce_" ++ toString e.1,
         input_files := e.2,
         output_file := GridMR.pyJoin (GridMR.pyJoin output_dir "placeholder")
           ("part-" ++ GridMR.pad5 e.1 ++ ".txt"),
         reducer_code := "",
         partition_id := e.1 } : GridMR.ReduceTask)) := by
    rw [GridMR.create_reduce_tasks, ← hfiles, hg] at h
    exact (Except.ok.inj h).symm
  have hpidmap : tasks.map (fun t => t.partition_id) = partitions.map Prod.fst := by
    rw [htasks, List.map_map]
    rfl
  have hnodup : (tasks.map (fun t => t.partition_id)).Nodup := by
    rw [hpidmap, hpart]
    exact GridMR.nodup_keys_dictGroup _ _ _
  have hinput : ∀ t ∈ tasks, t.input_files = files.filter (GridMR.hasPartId t.partition_id) := by
    intro t ht
    rw [htasks] at ht
    rcases List.mem_map.mp ht with ⟨e, he, rfl⟩
    show e.2 = files.filter (GridMR.hasPartId e.1)
    rw [hpart] at he
    rw [GridMR.snd_eq_of_mem_dictGroup Prod.fst Prod.snd _ e he,
      GridMR.filter_okPairs_map_snd]
  have hexists : ∀ p : Int, (∃ t ∈ tasks, t.partition_id = p)
      ↔ ∃ f ∈ files, GridMR.partIdOfFile f = some (.ok p) := by
    intro p
    rw [← GridMR.mem_okPairs files p]
    constructor
    · rintro ⟨t, ht, rfl⟩
      have : t.partition_id ∈ partitions.map Prod.fst := by
        rw [← hpidmap]
        exact List.mem_map_of_mem _ ht
      rw [hpart, GridMR.mem_keys_dictGroup] at this
      rcases this with ⟨q, hq, hq1⟩
      exact ⟨q, hq, hq1⟩
    · rintro ⟨q, hq, rfl⟩
      have : q.1 ∈ partitions.map Prod.fst := by
        rw [hpart, GridMR.mem_keys_dictGroup]
        exact ⟨q, hq, rfl⟩
      rw [← hpidmap] at this
      rcases List.mem_map.mp this with ⟨t, ht, hteq⟩
      exact ⟨t, ht, hteq⟩
  refine ⟨hnodup, hexists, hinput, ?_⟩
  intro f p hf hpf
  have hback : ∀ t ∈ tasks, (f ∈ t.input_files ↔ t.partition_id = p) := by
    intro t ht
    rw [hinput t ht]
    constructor
    · intro hmem
      have := (List.mem_filter.mp hmem).2
      rw [GridMR.hasPartId_true_iff] at this
      rw [hpf] at this
      cases this
      rfl
    · intro hpid
      refine List.mem_filter.mpr ⟨hf, ?_⟩
      rw [GridMR.hasPartId_true_iff, hpid]
      exact hpf
  constructor
  · have hcongr : tasks.filter (fun t => decide (f ∈ t.input_files))
        = tasks.filter (fun t => decide (t.partition_id = p)) := by
      apply List.filter_congr
      intro t ht
      simp only [decide_eq_decide]
      exact hback t ht
    rw [hcongr]
    have hmemp : p ∈ tasks.map (fun t => t.partition_id) := by
      rcases (hexists p).mpr ⟨f, hf, hpf⟩ with ⟨t, ht, hteq⟩
      exact hteq ▸ List.mem_map_of_mem _ ht
    exact GridMR.length_filter_eq_one (fun t => t.partition_id) tasks hnodup p hmemp
  · intro t ht hmem
    exact (hback t ht).mp hmem

/-- Witness for C3: one completed map result with two partition files
(`_part_1` then `_part_0`) yields two reduce tasks with distinct
partition ids, and the `_part_1` file lies in exactly one task. -/
theorem GridMR.create_reduce_tasks_partition_grouping_witness :
    ((GridMR.reduceTasksC3.filter
        (fun t => decide ("/d/map_j_map_0_part_1.txt" ∈ t.input_files))).length = 1)
    ∧ (GridMR.reduceTasksC3.map (fun t => t.partition_id)).Nodup :=
  have h : GridMR.create_reduce_tasks "j" "/o"
      [{ task_id := "j_map_0", task_type := .map, status := .completed,
         output_files := ["/d/map_j_map_0_part_1.txt", "/d/map_j_map_0_part_0.txt"] }]
      = .ok GridMR.reduceTasksC3 := by decide
  ⟨((GridMR.create_reduce_tasks_partition_grouping "j" "/o" _ _ h).2.2.2
      "/d/map_j_map_0_part_1.txt" 1 (by decide) (by decide)).1,
   (GridMR.create_reduce_tasks_partition_grouping "j" "/o" _ _ h).1⟩
